import Mathlib

/-!
Verification of the SQLSim in-browser SQL engine (SimonRundell/SQLSim).

This file shallowly embeds the statement-execution core of the repository:
the value model, the semantic validator (src/engine/validator.js, in the
version that also validates GROUP BY), and the executor
(src/engine/executor.js, the `Executor` class that handles all seven
statement kinds), together with the seed schema and data
(src/data/schema.js, src/data/sampleData.js).

JavaScript numbers are IEEE doubles; every number manipulated by the engine
on the inputs considered here (small integers, counts, counters) is exactly
representable, so numbers are modelled as rationals (ℚ), on which all the
arithmetic the engine performs (comparison, max, +1, sums) is exact.
JavaScript rows are objects; they are modelled as insertion-ordered
association lists, matching the object key-order semantics the engine
relies on (assignment to an existing key keeps its position, a new key is
appended).  Accessing a missing key yields `undefined`, modelled by
`JsValue.vundef`.

The snapshot of the repository ships stale copies of the tokenizer and the
parser (they reject DISTINCT, column constraints and most type names, while
the executor and the repository's own test-suite require them), so the
few parser-produced artefacts needed here are modelled from the spec and
are marked as such in their doc comments.  Everything else is translated
from the JavaScript source.
-/

namespace SQLSim

/-- Runtime values of the engine: JavaScript `null`, `undefined`, numbers,
strings and booleans.  Numbers are modelled as rationals (see the header). -/
inductive JsValue : Type
  | vnull
  | vundef
  | num (q : ℚ)
  | str (s : String)
  | bool (b : Bool)
deriving DecidableEq, Repr

/-- Whitespace characters recognised when JavaScript coerces a string to a
number (the common ones; exotic Unicode spaces do not occur in this code base). -/
def isJsSpace (c : Char) : Bool :=
  c = ' ' || c = '\t' || c = '\n' || c = '\r'

/-- Value of a digit string read in base 10. -/
def digitsVal (l : List Char) : ℤ :=
  l.foldl (fun a c => a * 10 + ((c.toNat : ℤ) - 48)) 0

/-- Value of the fractional-digit part of a decimal literal. -/
def fracVal (l : List Char) : ℚ :=
  (digitsVal l : ℚ) / ((10 : ℚ) ^ l.length)

/-- Parse an unsigned decimal numeric literal (digits, optionally with a
decimal point).  Returns `none` for anything else — the NaN outcome of
JavaScript `Number()`.  The exponent / hexadecimal / `Infinity` forms of
JavaScript numeric strings are outside the fragment used by this code base
and are conservatively not modelled. -/
def parseDecCore (cs : List Char) : Option ℚ :=
  let intPart := cs.takeWhile (fun c => c ≠ '.')
  let rest := cs.dropWhile (fun c => c ≠ '.')
  match rest with
  | [] =>
      if !intPart.isEmpty && intPart.all Char.isDigit then
        some ((digitsVal intPart : ℚ))
      else none
  | _ :: frac =>
      if (!intPart.isEmpty || !frac.isEmpty) && intPart.all Char.isDigit
          && frac.all Char.isDigit then
        some ((digitsVal intPart : ℚ) + fracVal frac)
      else none

/-- Parse a decimal literal with an optional sign. -/
def parseSigned (cs : List Char) : Option ℚ :=
  match cs with
  | '-' :: rest => (parseDecCore rest).map (fun q => -q)
  | '+' :: rest => parseDecCore rest
  | _ => parseDecCore cs

/-- JavaScript `Number(string)`: trimmed-empty coerces to `0`, a decimal
literal to its value, anything else to NaN (`none`). -/
def jsStringToNumber (s : String) : Option ℚ :=
  let cs₁ := s.toList.dropWhile isJsSpace
  let cs := (cs₁.reverse.dropWhile isJsSpace).reverse
  if cs.isEmpty then some 0 else parseSigned cs

/-- JavaScript `Number(value)` applied to an engine value; `none` is NaN. -/
def jsToNumber : JsValue → Option ℚ
  | .vnull => some 0
  | .vundef => none
  | .num q => some q
  | .str s => jsStringToNumber s
  | .bool b => some (if b then 1 else 0)

/-- Decimal rendering of a number.  JavaScript prints doubles in their
shortest round-trip decimal form; on integers (the only numeric values the
claims exercise) this is the plain integer string, which is what matters:
the engine only uses the rendering for GROUP BY keys, DISTINCT keys and
message interpolation, and the rendering used here is injective, so equality
of rendered keys coincides with JavaScript on the integer fragment. -/
def numRepr (q : ℚ) : String :=
  if q.den = 1 then toString q.num else toString q.num ++ "/" ++ toString q.den

/-- JavaScript `String(value)` coercion. -/
def jsToString : JsValue → String
  | .vnull => "null"
  | .vundef => "undefined"
  | .num q => numRepr q
  | .str s => s
  | .bool b => if b then "true" else "false"

/-- `value === null || value === undefined`, the guard the engine uses
before every comparison and in its NOT NULL checks. -/
def isNullish : JsValue → Bool
  | .vnull => true
  | .vundef => true
  | _ => false

/-- Minimal JSON string escaping (quote and backslash); the seed data and
the claims use no other escapable characters. -/
def jsonEscape (s : String) : String :=
  String.mk (s.toList.foldr
    (fun c acc => if c = '"' || c = '\\' then '\\' :: c :: acc else c :: acc) [])

/-- `JSON.stringify` of one value inside an array (`undefined` renders as
`null` there). -/
def jsonValueKey : JsValue → String
  | .vnull => "null"
  | .vundef => "null"
  | .num q => numRepr q
  | .str s => "\"" ++ jsonEscape s ++ "\""
  | .bool b => if b then "true" else "false"

/-- `JSON.stringify(row)` for a projected row, the key `applyDistinct`
deduplicates on. -/
def jsonRowKey (r : List JsValue) : String :=
  "[" ++ String.intercalate "," (r.map jsonValueKey) ++ "]"

/-- ASCII lower-casing of one character (`toLowerCase` on the engine's
ASCII patterns and values). -/
def lowerChar (c : Char) : Char :=
  if 'A' ≤ c && c ≤ 'Z' then Char.ofNat (c.toNat + 32) else c

/-- Split a character list at every occurrence of `sep` (the behaviour of
`split` with a one-character separator: n separators give n+1 segments). -/
def splitOnChar (sep : Char) : List Char → List (List Char)
  | [] => [[]]
  | c :: rest =>
      let r := splitOnChar sep rest
      if c = sep then [] :: r
      else
        match r with
        | [] => [[c]]
        | seg :: segs => (c :: seg) :: segs

/-- Remainder of `cs` after the first occurrence of `seg`, if any. -/
def dropAfterOccur (seg : List Char) : List Char → Option (List Char)
  | [] => if seg.isEmpty then some [] else none
  | c :: cs =>
      if seg.isPrefixOf (c :: cs) then some ((c :: cs).drop seg.length)
      else dropAfterOccur seg cs

/-- Match the middle and final segments of a LIKE pattern: each middle
segment at its leftmost occurrence, the final segment anchored at the end
(this is what backtracking on the regex `^s0.*s1.*…*sk$` accepts). -/
def likeSegsMid : List Char → List (List Char) → Bool
  | cs, [] => cs.isEmpty
  | cs, [last] => last.isSuffixOf cs
  | cs, seg :: rest =>
      match dropAfterOccur seg cs with
      | some cs' => likeSegsMid cs' rest
      | none => false

/-- The LIKE matcher of `Executor.compareValues`: the pattern is split on
`%` (each `%` matches any character sequence), all other characters are
literal (the code escapes regex metacharacters), matching is
case-insensitive and anchored at both ends. -/
def likeMatch (value pattern : String) : Bool :=
  let segs := splitOnChar '%' (pattern.toList.map lowerChar)
  let cs := value.toList.map lowerChar
  match segs with
  | [] => cs.isEmpty
  | [only] => cs == only
  | first :: rest => first.isPrefixOf cs && likeSegsMid (cs.drop first.length) rest

/-- Lexicographic order on character lists by code point — JavaScript
compares strings by UTF-16 code units, which agrees with code-point order
on the basic-multilingual-plane strings this engine handles. -/
def charListLt : List Char → List Char → Bool
  | [], [] => false
  | [], _ :: _ => true
  | _ :: _, [] => false
  | a :: as, b :: bs =>
      if a.toNat < b.toNat then true
      else if b.toNat < a.toNat then false
      else charListLt as bs

/-- JavaScript `a < b` on two strings. -/
def jsStrLt (a b : String) : Bool :=
  charListLt a.toList b.toList

/-- Numeric branch of the comparison switch in `compareValues` (JavaScript
`<=` is the negation of the reversed `<` on non-NaN operands). -/
def numCmpOp (op : String) (a b : ℚ) : Bool :=
  if op = "=" then a == b
  else if op = "!=" || op = "<>" then !(a == b)
  else if op = "<" then decide (a < b)
  else if op = "<=" then !(decide (b < a))
  else if op = ">" then decide (b < a)
  else if op = ">=" then !(decide (a < b))
  else false

/-- String branch of the comparison switch in `compareValues` (strict
equality, lexicographic order). -/
def strCmpOp (op : String) (a b : String) : Bool :=
  if op = "=" then a == b
  else if op = "!=" || op = "<>" then !(a == b)
  else if op = "<" then jsStrLt a b
  else if op = "<=" then !(jsStrLt b a)
  else if op = ">" then jsStrLt b a
  else if op = ">=" then !(jsStrLt a b)
  else false

/-- `Executor.compareValues(left, right, operator)`: any null/undefined
operand gives `false`; LIKE matches patterns on the string coercions; the
other operators compare numerically when both operands coerce to non-NaN
numbers and otherwise compare the string coercions; unknown operator
strings give `false`. -/
def compareValues (left right : JsValue) (op : String) : Bool :=
  if isNullish left || isNullish right then false
  else if op = "LIKE" then likeMatch (jsToString left) (jsToString right)
  else
    match jsToNumber left, jsToNumber right with
    | some a, some b => numCmpOp op a b
    | _, _ => strCmpOp op (jsToString left) (jsToString right)

/-- JavaScript `a < b` on engine values: string-vs-string lexicographic,
otherwise numeric after `Number()` coercion with NaN making the comparison
false.  This is the relation `applyOrderBy` sorts with. -/
def jsLt (a b : JsValue) : Bool :=
  match a, b with
  | .str s, .str t => jsStrLt s t
  | a, b =>
      match jsToNumber a, jsToNumber b with
      | some x, some y => decide (x < y)
      | _, _ => false

/-- The three-way comparator body of the sort in `applyOrderBy`. -/
def valueCmpJs (a b : JsValue) : ℤ :=
  if jsLt a b then -1 else if jsLt b a then 1 else 0

/-- Comparator on projected rows used by `applyOrderBy`: compare the values
at the order-column index (missing index reads as `undefined`), negated for
DESC. -/
def rowCmpJs (direction : String) (i : ℕ) (a b : List JsValue) : ℤ :=
  let c := valueCmpJs ((a.get? i).getD .vundef) ((b.get? i).getD .vundef)
  if direction = "DESC" then -c else c

/-- Insert `x` into `l` before the first element it does not compare
after.  Building block of the stable sort. -/
def orderedInsertJs {α : Type} (cmp : α → α → ℤ) (x : α) : List α → List α
  | [] => [x]
  | y :: ys => if cmp x y ≤ 0 then x :: y :: ys else y :: orderedInsertJs cmp x ys

/-- Stable sort by a three-way comparator.  ECMAScript requires
`Array.prototype.sort` to be stable, and on a consistent comparator every
stable sort produces the same output, so insertion sort is a faithful
model (the counterexamples below sort two-element lists, on which all
stable sorts agree even for inconsistent comparators). -/
def stableSortJs {α : Type} (cmp : α → α → ℤ) : List α → List α
  | [] => []
  | x :: xs => orderedInsertJs cmp x (stableSortJs cmp xs)

/- A few evaluation checks of the value model. -/
example : jsStringToNumber "" = some 0 := by decide
example : jsStringToNumber "10" = some 10 := by decide
example : jsStringToNumber "B12" = none := by decide
example : jsStringToNumber " 5 " = some 5 := by decide
example : compareValues (.num 0) (.str "") "=" = true := by decide
example : compareValues (.str "10") (.num 10) "=" = true := by decide
example : compareValues .vnull (.num 0) "=" = false := by decide
example : compareValues (.str "Smith") (.str "S%") "LIKE" = true := by decide
example : compareValues (.str "Smith") (.str "smith") "LIKE" = true := by decide
example : compareValues (.str "Smith") (.str "X%") "LIKE" = false := by decide
example : jsLt .vnull (.num (-1)) = false := by decide
example : jsLt (.num (-1)) .vnull = true := by decide
example : jsonRowKey [.num 1] = "[1]" := by decide
example : jsonRowKey [.num 1, .str "a"] = "[1,\"a\"]" := by decide
example : jsToString (.num 12) = "12" := by decide
example : compareValues (.str "b") (.str "a") ">" = true := by decide

/-!
## Catalog model

JavaScript objects used as string-keyed maps are modelled as
insertion-ordered association lists: assignment to an existing key keeps
its position, assignment to a new key appends, `delete` removes the entry. -/

/-- Look up a key in an object (first matching entry). -/
def alistGet {α : Type} : List (String × α) → String → Option α
  | [], _ => none
  | (k', v) :: rest, k => if k' = k then some v else alistGet rest k

/-- Assign a key in an object: overwrite in place or append. -/
def alistSet {α : Type} : List (String × α) → String → α → List (String × α)
  | [], k, v => [(k, v)]
  | (k', v') :: rest, k, v =>
      if k' = k then (k, v) :: rest else (k', v') :: alistSet rest k v

/-- Remove a key from an object (JavaScript `delete`). -/
def alistDel {α : Type} (m : List (String × α)) (k : String) : List (String × α) :=
  m.filter (fun p => !(p.1 == k))

/-- A stored row: column name to value. -/
abbrev Row := List (String × JsValue)

/-- Reading a property: a missing key yields `undefined`. -/
def rowGet (r : Row) (k : String) : JsValue :=
  (alistGet r k).getD (JsValue.vundef)

/-- The JavaScript `key in object` test. -/
def rowHas (r : Row) (k : String) : Bool :=
  (alistGet r k).isSome

/-- Column definition as stored in the schema objects.  Optional flags on
the JavaScript side read as `undefined`, which `Boolean()` sends to
`false`, so they are modelled as booleans defaulting to `false`. -/
structure ColumnDef where
  name : String
  type : String
  size : Option ℚ := none
  notNull : Bool := false
  autoIncrement : Bool := false
  isPrimaryKey : Bool := false
deriving DecidableEq, Repr

/-- A table schema entry.  `primaryKey` is `none` when the JavaScript field
is `null` or absent; `autoIncrementCounters` is `none` when the field is
absent (the executor creates it on demand, which is an observable state
change and is therefore modelled). -/
structure TableSchema where
  columns : List ColumnDef
  primaryKey : Option String := none
  isUserCreated : Bool := false
  autoIncrementCounters : Option (List (String × ℚ)) := none
deriving DecidableEq, Repr

/-- The mutable state `executeQuery` receives: the `schema` object and the
`tables` (row data) object. -/
structure SimState where
  schema : List (String × TableSchema)
  data : List (String × List Row)
deriving DecidableEq, Repr

/-!
## Errors (src/engine/errors.js)

The engine has two kinds of thrown errors: `SqlError` instances carrying a
code from `ErrorCodes`, and plain `Error`s (the DDL/DML paths throw these),
which carry only a message. -/

/-- A thrown error: a tagged `SqlError` or a plain `Error`. -/
inductive JsErr : Type
  | sqlError (code : String) (msg : String) (position : Option ℚ)
  | generic (msg : String)
deriving DecidableEq, Repr

/-- `createSyntaxError` from errors.js. -/
def createSyntaxError (msg : String) (position : Option ℚ := none) : JsErr :=
  .sqlError "SYNTAX_ERROR"
    ("Syntax error: " ++ msg ++
      ". Tip: check spelling, punctuation (commas, parentheses), and that you are only using supported features.")
    position

/-- `createUnknownTableError` from errors.js. -/
def createUnknownTableError (tableName : String) (position : Option ℚ := none) : JsErr :=
  .sqlError "UNKNOWN_TABLE"
    ("Unknown table: " ++ tableName ++
      ". Tip: check the table name in the tables panel or create the table first.")
    position

/-- `createUnknownColumnError` from errors.js. -/
def createUnknownColumnError (columnName : String) (tableName : Option String := none)
    (position : Option ℚ := none) : JsErr :=
  let tableInfo := match tableName with
    | some t => " in table " ++ t
    | none => ""
  .sqlError "UNKNOWN_COLUMN"
    ("Unknown column: " ++ columnName ++ tableInfo ++
      ". Tip: check spelling and use table.column if multiple tables are in the query.")
    position

/-- `createAmbiguousColumnError` from errors.js. -/
def createAmbiguousColumnError (columnName : String) (tables : List String)
    (position : Option ℚ := none) : JsErr :=
  .sqlError "AMBIGUOUS_COLUMN"
    ("Column '" ++ columnName ++ "' is ambiguous (found in: " ++
      String.intercalate ", " tables ++
      "). Tip: write it as table.column to show which one you mean.")
    position

/-!
## Module-level seed schema and data (src/data/schema.js, src/data/sampleData.js)

The validator resolves names against this module-level `schema` object via
the imported helpers `hasTable` / `hasColumn` / `getTableColumns`,
regardless of the schema argument handed to `validate`. -/

/-- The module-level `schema` object exported by src/data/schema.js. -/
def schemaJs : List (String × TableSchema) :=
  [("students",
    { columns :=
        [{ name := "student_id", type := "number" },
         { name := "forename", type := "string" },
         { name := "surname", type := "string" },
         { name := "tutor_group_id", type := "number" }],
      primaryKey := some "student_id" }),
   ("tutor_groups",
    { columns :=
        [{ name := "tutor_group_id", type := "number" },
         { name := "tutor_name", type := "string" },
         { name := "room", type := "string" }],
      primaryKey := some "tutor_group_id" }),
   ("attendance",
    { columns :=
        [{ name := "student_id", type := "number" },
         { name := "session_date", type := "string" },
         { name := "present", type := "string" }] }),
   ("grades",
    { columns :=
        [{ name := "student_id", type := "number" },
         { name := "module", type := "string" },
         { name := "paper", type := "number" },
         { name := "score", type := "number" }] })]

/-- `getTableColumns` from src/data/schema.js (null for an unknown table). -/
def getTableColumns (tableName : String) : Option (List String) :=
  (alistGet schemaJs tableName).map (fun ts => ts.columns.map (fun c => c.name))

/-- `hasColumn` from src/data/schema.js. -/
def hasColumn (tableName columnName : String) : Bool :=
  match getTableColumns tableName with
  | some cols => cols.contains columnName
  | none => false

/-- `hasTable` from src/data/schema.js: membership in the module-level
schema object. -/
def hasTable (tableName : String) : Bool :=
  (alistGet schemaJs tableName).isSome

/-- One student row of the seed data. -/
def studentRow (sid : ℚ) (fore sur : String) (tg : ℚ) : Row :=
  [("student_id", .num sid), ("forename", .str fore),
   ("surname", .str sur), ("tutor_group_id", .num tg)]

/-- The `sampleData` object from src/data/sampleData.js. -/
def sampleDataJs : List (String × List Row) :=
  [("students",
    [studentRow 1 "Alice" "Smith" 1,
     studentRow 2 "Bob" "Johnson" 1,
     studentRow 3 "Charlie" "Smith" 2,
     studentRow 4 "Diana" "Brown" 2,
     studentRow 5 "Eve" "Williams" 3,
     studentRow 6 "Frank" "Davis" 3,
     studentRow 7 "Grace" "Miller" 1,
     studentRow 8 "Henry" "Wilson" 2,
     studentRow 9 "Iris" "Moore" 3,
     studentRow 10 "Jack" "Taylor" 1]),
   ("tutor_groups",
    [[("tutor_group_id", .num 1), ("tutor_name", .str "Clive Anderson"), ("room", .str "B12")],
     [("tutor_group_id", .num 2), ("tutor_name", .str "Amelia Bennett"), ("room", .str "A5")],
     [("tutor_group_id", .num 3), ("tutor_name", .str "Sidney Carter"), ("room", .str "C3")]]),
   ("attendance",
    [[("student_id", .num 1), ("session_date", .str "2026-01-20"), ("present", .str "Y")],
     [("student_id", .num 1), ("session_date", .str "2026-01-21"), ("present", .str "Y")],
     [("student_id", .num 2), ("session_date", .str "2026-01-20"), ("present", .str "N")],
     [("student_id", .num 2), ("session_date", .str "2026-01-21"), ("present", .str "Y")],
     [("student_id", .num 3), ("session_date", .str "2026-01-20"), ("present", .str "Y")],
     [("student_id", .num 5), ("session_date", .str "2026-01-20"), ("present", .str "Y")],
     [("student_id", .num 5), ("session_date", .str "2026-01-21"), ("present", .str "Y")],
     [("student_id", .num 7), ("session_date", .str "2026-01-20"), ("present", .str "N")]])]

/-- The catalog the application starts from: the module schema paired with
the sample data (App.jsx passes exactly these two objects to
`executeQuery`). -/
def seedState : SimState :=
  { schema := schemaJs, data := sampleDataJs }

/-!
## Statement AST

The shape of the objects the parser hands to the validator and executor,
as consumed by the `Executor` class (field names follow the source). -/

/-- A column reference `ident` or `ident.ident`; `resolvedTable` is filled
in by the validator on unqualified references. -/
structure ColRef where
  table : Option String := none
  column : String
  resolvedTable : Option String := none
  position : Option ℚ := none
deriving DecidableEq, Repr

/-- An operand of a comparison or a VALUES entry: a literal or a column
reference. -/
inductive Operand : Type
  | lit (v : JsValue)
  | colRef (c : ColRef)
deriving DecidableEq, Repr

/-- One comparison of a WHERE predicate. -/
structure Comparison where
  left : Operand
  operator : String := "="
  right : Operand
deriving DecidableEq, Repr

/-- A WHERE clause: AND-chained comparisons. -/
structure WhereAst where
  and : List Comparison
deriving DecidableEq, Repr

/-- Argument of an aggregate: `*` or a column. -/
inductive AggArg : Type
  | star
  | colRef (c : ColRef)
deriving DecidableEq, Repr

/-- What a select item denotes: a column reference or an aggregate call. -/
inductive SelectItemKind : Type
  | colRef (c : ColRef)
  | agg (function : String) (argument : AggArg)
deriving DecidableEq, Repr

/-- A select-list item together with its optional alias (the source field
is named alias, which Lean reserves). -/
structure SelectItem where
  kind : SelectItemKind
  aliasName : Option String := none
deriving DecidableEq, Repr

/-- The select list: `*` (with an empty items list, as the parser builds
it) or explicit items; `distinct` records a DISTINCT keyword. -/
structure SelectAst where
  star : Bool := false
  distinct : Bool := false
  items : List SelectItem := []
deriving DecidableEq, Repr

/-- An INNER JOIN clause; the ON comparison is always equality (the grammar
admits only `=` there, and `applyJoin` defaults a missing operator to `=`). -/
structure JoinAst where
  table : String
  onLeft : ColRef
  onRight : ColRef
deriving DecidableEq, Repr

/-- GROUP BY clause. -/
structure GroupByAst where
  columns : List ColRef
deriving DecidableEq, Repr

/-- ORDER BY clause (`direction` is the string `ASC` or `DESC`). -/
structure OrderByAst where
  column : ColRef
  direction : String := "ASC"
deriving DecidableEq, Repr

/-- A SELECT statement. -/
structure QueryAst where
  select : SelectAst
  fromTable : String
  join : Option JoinAst := none
  whereClause : Option WhereAst := none
  groupBy : Option GroupByAst := none
  orderBy : Option OrderByAst := none
  limit : Option ℚ := none
deriving DecidableEq, Repr

/-- A column definition as parsed in CREATE TABLE / ALTER TABLE. -/
structure CreateColumnAst where
  name : String
  type : String
  size : Option ℚ := none
  notNull : Bool := false
  autoIncrement : Bool := false
  isPrimaryKey : Bool := false
deriving DecidableEq, Repr

/-- One SET assignment of an UPDATE (the parser only admits literal
values). -/
structure AssignmentAst where
  column : String
  value : Operand
deriving DecidableEq, Repr

/-- The seven statement kinds the executor dispatches on. -/
inductive Statement : Type
  | query (q : QueryAst)
  | createTable (tableName : String) (columns : List CreateColumnAst) (primaryKey : Option String)
  | alterTable (tableName : String) (column : CreateColumnAst)
  | dropTable (tableName : String)
  | insert (tableName : String) (columns : List String) (values : List Operand)
  | update (tableName : String) (assignments : List AssignmentAst) (whereClause : Option WhereAst)
  | delete (tableName : String) (whereClause : Option WhereAst)
deriving DecidableEq, Repr

/-- The result object returned to the caller.  `meta.warnings` and
`meta.steps` are constant empties and `meta.modified` is not inspected by
anything the claims mention, so only the observable fields are modelled. -/
structure Output where
  columns : List String
  rows : List (List JsValue)
  rowCount : ℕ
deriving DecidableEq, Repr

/-!
## Validator (src/engine/validator.js)

Embedded in the version that also validates GROUP BY (the snapshot carries
that version alongside the engine one; the engine copy is the same code
minus the GROUP BY block).  The crucial point, kept faithfully: the
`Validator` stores the schema argument it is given but resolves every name
through the module-level `hasTable` / `hasColumn` / `getTableColumns`
helpers bound to the seed schema object. -/

/-- `Validator.validateColumnRef`: qualified references must name a table
in scope holding the column; unqualified references must match exactly one
table in scope and get `resolvedTable` annotated. -/
def validateColumnRef (tablesInScope : List String) (c : ColRef) : Except JsErr ColRef :=
  match c.table with
  | some t =>
      if !(tablesInScope.contains t) then
        .error (createUnknownTableError t c.position)
      else if !(hasColumn t c.column) then
        .error (createUnknownColumnError c.column (some t) c.position)
      else .ok c
  | none =>
      match tablesInScope.filter (fun t => hasColumn t c.column) with
      | [] => .error (createUnknownColumnError c.column none c.position)
      | [t] => .ok { c with resolvedTable := some t }
      | matching => .error (createAmbiguousColumnError c.column matching c.position)

/-- `Validator.validateSelectItem`: validate a column item, or the column
argument of an aggregate (`*` needs no validation). -/
def validateSelectItem (tablesInScope : List String) (item : SelectItem) :
    Except JsErr SelectItem :=
  match item.kind with
  | .colRef c => do
      let c' ← validateColumnRef tablesInScope c
      pure { item with kind := .colRef c' }
  | .agg f (.colRef c) => do
      let c' ← validateColumnRef tablesInScope c
      pure { item with kind := .agg f (.colRef c') }
  | .agg _ .star => pure item

/-- `Validator.validateSelectWithGroupBy`: every plain column item must
appear (as `table.column` after resolution) among the GROUP BY columns. -/
def validateSelectWithGroupBy (items : List SelectItem) (groupByColumns : List String) :
    Except JsErr Unit :=
  match items with
  | [] => .ok ()
  | item :: rest =>
      match item.kind with
      | .colRef c =>
          let fullName := (c.table.getD (c.resolvedTable.getD "undefined")) ++ "." ++ c.column
          if groupByColumns.contains fullName then
            validateSelectWithGroupBy rest groupByColumns
          else
            .error (createSyntaxError
              ("Column '" ++ c.column ++
                "' must appear in GROUP BY clause or be used in an aggregate function")
              c.position)
      | .agg _ _ => validateSelectWithGroupBy rest groupByColumns

/-- `validate(ast, schema)`: the schema argument is stored but never
consulted — all resolution goes through the module-level seed schema.  On
success the annotated query and the scope (`tablesInScope`) are returned. -/
def validateQuery (q : QueryAst) (_schemaArg : List (String × TableSchema)) :
    Except JsErr (QueryAst × List String) := do
  if !(hasTable q.fromTable) then
    throw (createUnknownTableError q.fromTable none)
  let (join', scope) ← (match q.join with
    | none => pure ((none : Option JoinAst), [q.fromTable])
    | some j => do
        if !(hasTable j.table) then
          throw (createUnknownTableError j.table none)
        let scope := [q.fromTable, j.table]
        let l ← validateColumnRef scope j.onLeft
        let r ← validateColumnRef scope j.onRight
        pure (some { j with onLeft := l, onRight := r }, scope))
  let items' ← (if q.select.star then pure q.select.items
    else q.select.items.mapM (validateSelectItem scope))
  let groupBy' ← (match q.groupBy with
    | none => pure (none : Option GroupByAst)
    | some g => do
        let cols ← g.columns.mapM (validateColumnRef scope)
        if !q.select.star then
          let groupByColumns := cols.map (fun col =>
            (col.table.getD (col.resolvedTable.getD "undefined")) ++ "." ++ col.column)
          validateSelectWithGroupBy items' groupByColumns
        pure (some { columns := cols }))
  let whereAnn ← (match q.whereClause with
    | none => pure (none : Option WhereAst)
    | some w => do
        let cs ← w.and.mapM (fun comp => do
          let l ← (match comp.left with
            | .colRef c => do
                let c' ← validateColumnRef scope c
                pure (Operand.colRef c')
            | other => pure other)
          let r ← (match comp.right with
            | .colRef c => do
                let c' ← validateColumnRef scope c
                pure (Operand.colRef c')
            | other => pure other)
          pure { comp with left := l, right := r })
        pure (some { and := cs }))
  let orderBy' ← (match q.orderBy with
    | none => pure (none : Option OrderByAst)
    | some o => do
        let c ← validateColumnRef scope o.column
        pure (some { o with column := c }))
  pure ({ q with
          select := { q.select with items := items' },
          join := join',
          groupBy := groupBy',
          whereClause := whereAnn,
          orderBy := orderBy' }, scope)

/-- A column produced for `SELECT *`. -/
structure StarCol where
  table : String
  column : String
  displayName : String
deriving DecidableEq, Repr

/-- `Validator.getStarColumns`: all columns of the in-scope tables, in
scope order then schema order, qualified display names when more than one
table is in scope. -/
def getStarColumns (tablesInScope : List String) : List StarCol :=
  (tablesInScope.map (fun t =>
    ((getTableColumns t).getD []).map (fun col =>
      { table := t, column := col,
        displayName := if tablesInScope.length > 1 then t ++ "." ++ col else col }))).flatten

/-!
## Executor (src/engine/executor.js, the `Executor` class)

DDL/DML methods mutate the catalog in place and signal failure by
throwing; that is modelled by every step returning the current state along
with the error, so a caller observes exactly the partial mutations the
JavaScript code leaves behind.  A handful of code paths would raise a
TypeError in JavaScript (reading a property of `undefined`); they are
unreachable after the checks that precede them and are modelled as a
generic "TypeError" error. -/

/-- Decidable equality for result values (used to state concrete runs). -/
instance {ε α : Type} [DecidableEq ε] [DecidableEq α] : DecidableEq (Except ε α) := fun a b =>
  match a, b with
  | .ok x, .ok y =>
      if h : x = y then .isTrue (by rw [h])
      else .isFalse (by intro hc; cases hc; exact h rfl)
  | .error x, .error y =>
      if h : x = y then .isTrue (by rw [h])
      else .isFalse (by intro hc; cases hc; exact h rfl)
  | .ok _, .error _ => .isFalse (by intro hc; cases hc)
  | .error _, .ok _ => .isFalse (by intro hc; cases hc)

/-- The numerator/denominator form of `q + 1` stays reduced. -/
theorem ratSucc_coprime (q : ℚ) : (q.num + (q.den : ℤ)).natAbs.Coprime q.den := by
  have h1 : Int.gcd q.num (q.den : ℤ) = 1 := by
    simpa [Int.gcd] using q.reduced
  have h2 : IsCoprime q.num ((q.den : ℤ)) := Int.gcd_eq_one_iff_coprime.mp h1
  have h3 : IsCoprime (q.num + (q.den : ℤ) * 1) ((q.den : ℤ)) := h2.add_mul_left_left 1
  have h4 : Int.gcd (q.num + (q.den : ℤ)) (q.den : ℤ) = 1 := by
    rw [Int.gcd_eq_one_iff_coprime]
    simpa using h3
  simpa [Int.gcd] using h4

/-- `q + 1`, written so that the kernel can evaluate it on literals (the
generic rational addition normalises with a well-founded gcd and does not
reduce definitionally); `ratSucc_eq` identifies it with `q + 1`. -/
def ratSucc (q : ℚ) : ℚ := ⟨q.num + q.den, q.den, q.den_nz, ratSucc_coprime q⟩

/-- `ratSucc` is addition of one. -/
theorem ratSucc_eq (q : ℚ) : ratSucc q = q + 1 := by
  have hden : ((q.den : ℚ)) ≠ 0 := by
    exact_mod_cast q.den_nz
  rw [ratSucc, Rat.mk'_eq_divInt, Rat.divInt_eq_div]
  push_cast
  rw [add_div, div_self hden, Rat.num_div_den]

/-- The protected-table list repeated in each DDL/DML method. -/
def protectedTables : List String := ["students", "tutor_groups", "grades"]

/-- A scoped row: table name to source row, the unit JOIN/WHERE work on. -/
abbrev ScopedRow := List (String × Row)

/-- `comparison.operator || '='`. -/
def opOrEq (s : String) : String :=
  if s = "" then "=" else s

/-- `Executor.resolveColumnDefinitions`: normalise the schema's column
entries, defaulting the type, and folding a table-level `primaryKey` into
the per-column flags. -/
def resolveColumnDefinitions (st : SimState) (tableName : String) : List ColumnDef :=
  let tableSchema := (alistGet st.schema tableName).getD { columns := [] }
  tableSchema.columns.map (fun col =>
    { name := col.name,
      type := if col.type = "" then "string" else col.type,
      size := col.size,
      autoIncrement := col.autoIncrement,
      isPrimaryKey := col.isPrimaryKey || decide (tableSchema.primaryKey = some col.name),
      notNull := col.notNull || col.autoIncrement ||
        decide (tableSchema.primaryKey = some col.name) })

/-- `Executor.getPrimaryKey`: the table-level primary key, else the first
column flagged as one. -/
def getPrimaryKey (tableSchema : TableSchema) (columnDefs : List ColumnDef) : Option String :=
  match tableSchema.primaryKey with
  | some pk => some pk
  | none => (columnDefs.find? (fun c => c.isPrimaryKey)).map (fun c => c.name)

/-- `Executor.getLiteralValue`: the value of a literal operand, `null` for
anything else. -/
def getLiteralValue (op : Operand) : JsValue :=
  match op with
  | .lit v => v
  | _ => .vnull

/-- `Executor.isTypeCompatible`: null/undefined always pass; otherwise the
runtime kind must match the declared type; unknown type names pass.  (The
`Number.isFinite` part of the number case always holds for the rationals
modelling the engine's numbers.) -/
def isTypeCompatible (v : JsValue) (expectedType : String) : Bool :=
  if isNullish v then true
  else if expectedType = "" then true
  else if expectedType = "number" then
    match v with | .num _ => true | _ => false
  else if expectedType = "string" then
    match v with | .str _ => true | _ => false
  else if expectedType = "boolean" then
    match v with | .bool _ => true | _ => false
  else true

/-- The fold in `getNextAutoIncrementValue` computing the largest finite
numeric coercion present in a column (starting from 0). -/
def maxNumericInColumn (rows : List Row) (columnName : String) : ℚ :=
  rows.foldl (fun m row =>
    match jsToNumber (rowGet row columnName) with
    | some v => if v > m then v else m
    | none => m) 0

/-- `Executor.getNextAutoIncrementValue`: one more than the larger of the
stored counter and the largest numeric value present in the column; the
counter (and, if missing, the counters object) is written back into the
schema. -/
def getNextAutoIncrementValue (st : SimState) (tableName columnName : String) :
    ℚ × SimState :=
  let tableData := (alistGet st.data tableName).getD []
  let tableSchema := (alistGet st.schema tableName).getD { columns := [] }
  let counters := tableSchema.autoIncrementCounters.getD []
  let currentMax := maxNumericInColumn tableData columnName
  let nextVal := ratSucc (max ((alistGet counters columnName).getD 0) currentMax)
  let tableSchema' := { tableSchema with
    autoIncrementCounters := some (alistSet counters columnName nextVal) }
  (nextVal, { st with schema := alistSet st.schema tableName tableSchema' })

/-- The explicit-value counter bump appearing verbatim in both
`executeInsert` and `executeUpdate`: on a finite numeric write to an
AUTO_INCREMENT column, raise the counter to at least that value. -/
def bumpAutoIncrementCounter (st : SimState) (tableName columnName : String)
    (newValue : JsValue) : SimState :=
  match jsToNumber newValue with
  | some n =>
      let tableSchema := (alistGet st.schema tableName).getD { columns := [] }
      let counters := tableSchema.autoIncrementCounters.getD []
      let current := (alistGet counters columnName).getD 0
      let tableSchema' := { tableSchema with
        autoIncrementCounters := some (alistSet counters columnName (max current n)) }
      { st with schema := alistSet st.schema tableName tableSchema' }
  | none => st

/-- `Executor.evalOperand`: literals evaluate to their value, column
references read from the scoped row (validation guarantees the table key
is in scope; a missing key reads as `undefined` where JavaScript would
fault, which is unreachable). -/
def evalOperand (operand : Operand) (combinedRow : ScopedRow) : JsValue :=
  match operand with
  | .lit v => v
  | .colRef c =>
      let tableName := c.table.getD (c.resolvedTable.getD "undefined")
      rowGet ((alistGet combinedRow tableName).getD []) c.column

/-- `Executor.evalOperandForModification`: like `evalOperand` but an
unqualified column falls back to the statement's target table. -/
def evalOperandForModification (operand : Operand) (combinedRow : ScopedRow)
    (tableName : String) : JsValue :=
  match operand with
  | .lit v => v
  | .colRef c =>
      rowGet ((alistGet combinedRow (c.table.getD tableName)).getD []) c.column

/-- `Executor.buildFromRowset`: each source row becomes a scoped row keyed
by the FROM table's name. -/
def buildFromRowset (fromTable : String) (data : List (String × List Row)) :
    List ScopedRow :=
  ((alistGet data fromTable).getD []).map (fun row => [(fromTable, row)])

/-- `Executor.applyJoin`: cross product with the JOIN table in insertion
order, keeping combined rows whose ON equality holds (`applyJoin` defaults
the missing operator to `=`). -/
def applyJoin (j : JoinAst) (data : List (String × List Row))
    (leftRowset : List ScopedRow) : List ScopedRow :=
  let rightTableData := (alistGet data j.table).getD []
  (leftRowset.map (fun leftRow =>
    (rightTableData.map (fun rightRow => alistSet leftRow j.table rightRow)).filter
      (fun combinedRow =>
        compareValues (evalOperand (.colRef j.onLeft) combinedRow)
          (evalOperand (.colRef j.onRight) combinedRow) "="))).flatten

/-- `Executor.applyWhere`: keep rows on which every AND-chained comparison
holds. -/
def applyWhere (w : WhereAst) (rowset : List ScopedRow) : List ScopedRow :=
  rowset.filter (fun row =>
    w.and.all (fun comp =>
      compareValues (evalOperand comp.left row) (evalOperand comp.right row)
        (opOrEq comp.operator)))

/-- The data kept per group by `applyGroupBy`. -/
structure GroupData where
  rows : List ScopedRow
  firstRow : ScopedRow
deriving DecidableEq, Repr

/-- The group key of a scoped row: the string coercions of the GROUP BY
column values joined with a bar. -/
def groupKeyOf (g : GroupByAst) (row : ScopedRow) : String :=
  String.intercalate "|" (g.columns.map (fun colRef =>
    let tableName := colRef.table.getD (colRef.resolvedTable.getD "undefined")
    jsToString (rowGet ((alistGet row tableName).getD []) colRef.column)))

/-- `Executor.applyGroupBy`: partition the rowset by group key, preserving
first-seen group order and in-group row order. -/
def applyGroupBy (g : GroupByAst) (rowset : List ScopedRow) :
    List (String × GroupData) :=
  rowset.foldl (fun groups row =>
    let key := groupKeyOf g row
    match alistGet groups key with
    | some gd => alistSet groups key { gd with rows := gd.rows ++ [row] }
    | none => groups ++ [(key, { rows := [row], firstRow := row })]) []

/-- JavaScript `Math.round`: half-up (towards positive infinity). -/
def jsRound (q : ℚ) : ℚ :=
  ((Int.floor (q + 1 / 2) : ℤ) : ℚ)

/-- `Executor.computeAggregate`: COUNT counts rows or non-null values;
SUM/AVG/MIN/MAX work over the actual numbers in the column, yielding null
when none exist; AVG is rounded to two decimals; an unknown function gives
0.  (A `*` argument to a non-COUNT aggregate is rejected by the parser and
unreachable here.) -/
def computeAggregate (function : String) (argument : AggArg)
    (rows : List ScopedRow) : JsValue :=
  if function = "COUNT" then
    match argument with
    | .star => .num rows.length
    | .colRef c =>
        let t := c.table.getD (c.resolvedTable.getD "undefined")
        .num ((rows.filter (fun row =>
          !isNullish (rowGet ((alistGet row t).getD []) c.column))).length)
  else
    match argument with
    | .star => .vnull
    | .colRef c =>
        let t := c.table.getD (c.resolvedTable.getD "undefined")
        let values := rows.filterMap (fun row =>
          match rowGet ((alistGet row t).getD []) c.column with
          | .num q => some q
          | _ => none)
        match values with
        | [] => .vnull
        | v :: vs =>
            if function = "SUM" then .num (values.sum)
            else if function = "AVG" then
              .num (jsRound ((values.sum / values.length) * 100) / 100)
            else if function = "MIN" then .num (vs.foldl min v)
            else if function = "MAX" then .num (vs.foldl max v)
            else .num 0

/-- The output column name of a select item: its alias if set, else the
qualified/unqualified column reference in its written form, else the
aggregate's canonical form.  (This naming code appears identically in
`applySelect` and `applySelectWithGroupBy`.) -/
def selectItemName (tablesInScope : List String) (item : SelectItem) : String :=
  match item.aliasName with
  | some a => a
  | none =>
      match item.kind with
      | .colRef c =>
          let tableName := c.table.getD (c.resolvedTable.getD "undefined")
          if tablesInScope.length > 1 && c.table.isNone then
            tableName ++ "." ++ c.column
          else
            match c.table with
            | some t => t ++ "." ++ c.column
            | none => c.column
      | .agg f arg =>
          match arg with
          | .star => f ++ "(*)"
          | .colRef c => f ++ "(" ++ c.column ++ ")"

/-- `Executor.applySelectWithGroupBy`: one output row per group; column
items take their value from the group's first row, aggregates are computed
over the group. -/
def applySelectWithGroupBy (tablesInScope : List String) (items : List SelectItem)
    (groupedData : List (String × GroupData)) :
    List String × List (List JsValue) :=
  (items.map (selectItemName tablesInScope),
   groupedData.map (fun p =>
     items.map (fun item =>
       match item.kind with
       | .colRef c =>
           let t := c.table.getD (c.resolvedTable.getD "undefined")
           rowGet ((alistGet p.2.firstRow t).getD []) c.column
       | .agg f arg => computeAggregate f arg p.2.rows)))

/-- `Executor.applySelect`: project the rowset onto the star expansion or
the explicit items (on reachable inputs the items here are plain column
references; aggregates always go through the grouped path). -/
def applySelect (tablesInScope : List String) (select : SelectAst)
    (rowset : List ScopedRow) : List String × List (List JsValue) :=
  if select.star then
    let starColumns := getStarColumns tablesInScope
    (starColumns.map (fun c => c.displayName),
     rowset.map (fun combinedRow =>
       starColumns.map (fun c =>
         rowGet ((alistGet combinedRow c.table).getD []) c.column)))
  else
    (select.items.map (selectItemName tablesInScope),
     rowset.map (fun combinedRow =>
       select.items.map (fun item =>
         match item.kind with
         | .colRef c =>
             let t := c.table.getD (c.resolvedTable.getD "undefined")
             rowGet ((alistGet combinedRow t).getD []) c.column
         | .agg _ _ => .vundef)))

/-- `Executor.applyDistinct`: drop rows whose `JSON.stringify` key has
been seen before, keeping first occurrences in order. -/
def applyDistinct (rows : List (List JsValue)) : List (List JsValue) :=
  (rows.foldl (fun (acc : List String × List (List JsValue)) row =>
    let key := jsonRowKey row
    if acc.1.contains key then acc else (acc.1 ++ [key], acc.2 ++ [row])) ([], [])).2

/-- The column-index search at the top of `Executor.applyOrderBy`: the
order column's written form first, then the unqualified and
resolved-qualified fallbacks. -/
def orderByIndex (o : OrderByAst) (columns : List String) : Option ℕ :=
  let tableName := o.column.table.getD (o.column.resolvedTable.getD "undefined")
  let colName := match o.column.table with
    | some t => t ++ "." ++ o.column.column
    | none => o.column.column
  match columns.findIdx? (fun c => c == colName) with
  | some i => some i
  | none => columns.findIdx? (fun c =>
      c == o.column.column || c == tableName ++ "." ++ o.column.column)

/-- `Executor.applyOrderBy` continued: no resolvable column index returns
the rows unsorted, else a stable sort by the JavaScript comparator. -/
def applyOrderBy (o : OrderByAst) (rows : List (List JsValue))
    (columns : List String) : List (List JsValue) :=
  match orderByIndex o columns with
  | none => rows
  | some i => stableSortJs (rowCmpJs o.direction i) rows

/-- `Executor.executeQuery` (the SELECT pipeline): FROM, JOIN, WHERE,
grouping (explicit, or one implicit group when aggregates appear without
GROUP BY), projection, DISTINCT, ORDER BY, LIMIT.  It reads but never
writes the catalog. -/
def executeSelect (tablesInScope : List String) (q : QueryAst)
    (data : List (String × List Row)) : Output :=
  let rowset₀ := buildFromRowset q.fromTable data
  let rowset₁ := match q.join with
    | some j => applyJoin j data rowset₀
    | none => rowset₀
  let rowset := match q.whereClause with
    | some w => applyWhere w rowset₁
    | none => rowset₁
  let hasAggregates := q.select.items.any (fun item =>
    match item.kind with | .agg _ _ => true | _ => false)
  let groupedData : Option (List (String × GroupData)) :=
    match q.groupBy with
    | some g => some (applyGroupBy g rowset)
    | none =>
        if hasAggregates then
          some [("_all", { rows := rowset, firstRow := rowset.headD [] })]
        else none
  let selection := match groupedData with
    | some gd => applySelectWithGroupBy tablesInScope q.select.items gd
    | none => applySelect tablesInScope q.select rowset
  let rows₁ := if q.select.distinct then applyDistinct selection.2 else selection.2
  let orderedRows := match q.orderBy with
    | some o => applyOrderBy o rows₁ selection.1
    | none => rows₁
  let finalRows := match q.limit with
    | some n => orderedRows.take (Int.toNat (Int.floor n))
    | none => orderedRows
  { columns := selection.1, rows := finalRows, rowCount := finalRows.length }

/-- First duplicate column name in declaration order, if any (the Set walk
in `executeCreateTable`). -/
def firstDuplicateName (cols : List ColumnDef) : Option String :=
  (cols.foldl (fun (acc : List String × Option String) col =>
    match acc.2 with
    | some _ => acc
    | none =>
        if acc.1.contains col.name then (acc.1, some col.name)
        else (acc.1 ++ [col.name], none)) ([], none)).2

/-- `Executor.executeCreateTable`: reject an existing name and duplicate
columns, resolve the primary key (explicit table-level key first, then the
first flagged column), install an empty table with empty counters. -/
def executeCreateTable (tableName : String) (columns : List CreateColumnAst)
    (primaryKey : Option String) (st : SimState) :
    Except (JsErr × SimState) (Output × SimState) :=
  if (alistGet st.schema tableName).isSome || (alistGet st.data tableName).isSome then
    .error (.generic ("Table '" ++ tableName ++ "' already exists"), st)
  else
    let normalizedColumns : List ColumnDef := columns.map (fun col =>
      { name := col.name, type := col.type, size := col.size,
        notNull := col.notNull || col.isPrimaryKey || col.autoIncrement,
        autoIncrement := col.autoIncrement,
        isPrimaryKey := col.isPrimaryKey })
    match firstDuplicateName normalizedColumns with
    | some dup =>
        .error (.generic ("Duplicate column '" ++ dup ++ "' in table definition"), st)
    | none =>
        let effectivePrimaryKey := match primaryKey with
          | some pk => some pk
          | none => (normalizedColumns.find? (fun c => c.isPrimaryKey)).map (fun c => c.name)
        let st' : SimState :=
          { schema := alistSet st.schema tableName
              { columns := normalizedColumns, isUserCreated := true,
                primaryKey := effectivePrimaryKey, autoIncrementCounters := some [] },
            data := alistSet st.data tableName [] }
        .ok ({ columns := ["Result"],
               rows := [[.str ("Table '" ++ tableName ++ "' created successfully with "
                 ++ toString columns.length ++ " column(s)")]],
               rowCount := 0 }, st')

/-- The back-fill loop of `executeAlterTable`: write the new column into
each existing row (successive auto-increment values, or null). -/
def alterBackfillGo (tableName colName : String) (autoInc : Bool) :
    List ℕ → SimState → SimState
  | [], st => st
  | i :: rest, st =>
      let vs := if autoInc then
          let r := getNextAutoIncrementValue st tableName colName
          (JsValue.num r.1, r.2)
        else (JsValue.vnull, st)
      let rows := (alistGet vs.2.data tableName).getD []
      let rows' := match rows.get? i with
        | some row => rows.set i (alistSet row colName vs.1)
        | none => rows
      alterBackfillGo tableName colName autoInc rest
        { vs.2 with data := alistSet vs.2.data tableName rows' }

/-- `Executor.executeAlterTable`: checks (existence, protection, duplicate
column, no constrained column on a non-empty table), then the column is
pushed into the schema, the primary-key bookkeeping runs (throwing after
the push when a key already exists), and existing rows are back-filled. -/
def executeAlterTable (tableName : String) (column : CreateColumnAst) (st : SimState) :
    Except (JsErr × SimState) (Output × SimState) :=
  match alistGet st.schema tableName with
  | none => .error (.generic ("Table '" ++ tableName ++ "' does not exist"), st)
  | some ts =>
    if protectedTables.contains tableName then
      .error (.generic ("Cannot alter protected table '" ++ tableName ++ "'"), st)
    else if ts.columns.any (fun col => col.name == column.name) then
      .error (.generic ("Column '" ++ column.name ++ "' already exists in table '"
        ++ tableName ++ "'"), st)
    else
      let tableData := (alistGet st.data tableName).getD []
      if !tableData.isEmpty && (column.notNull || column.isPrimaryKey || column.autoIncrement) then
        .error (.generic
          "Cannot add NOT NULL, PRIMARY KEY, or AUTO_INCREMENT column to a non-empty table", st)
      else
        let normalizedColumn : ColumnDef :=
          { name := column.name, type := column.type, size := column.size,
            notNull := column.notNull || column.isPrimaryKey || column.autoIncrement,
            autoIncrement := column.autoIncrement,
            isPrimaryKey := column.isPrimaryKey }
        let ts₁ : TableSchema := { ts with columns := ts.columns ++ [normalizedColumn] }
        let st₁ : SimState := { st with schema := alistSet st.schema tableName ts₁ }
        let finish : SimState → Except (JsErr × SimState) (Output × SimState) := fun st' =>
          let st'' := alterBackfillGo tableName normalizedColumn.name
            normalizedColumn.autoIncrement (List.range tableData.length) st'
          .ok ({ columns := ["Result"],
                 rows := [[JsValue.str ("Column '" ++ normalizedColumn.name
                   ++ "' added to table '" ++ tableName ++ "'")]],
                 rowCount := 0 }, st'')
        if normalizedColumn.isPrimaryKey then
          match ts.primaryKey with
          | some pk =>
              .error (.generic ("Table '" ++ tableName ++ "' already has a primary key '"
                ++ pk ++ "'"), st₁)
          | none =>
              let ts₂ : TableSchema := { ts₁ with primaryKey := some normalizedColumn.name }
              finish { st₁ with schema := alistSet st₁.schema tableName ts₂ }
        else finish st₁

/-- `Executor.executeDropTable`: checks, then remove both the schema entry
and the data entry. -/
def executeDropTable (tableName : String) (st : SimState) :
    Except (JsErr × SimState) (Output × SimState) :=
  match alistGet st.schema tableName with
  | none => .error (.generic ("Table '" ++ tableName ++ "' does not exist"), st)
  | some _ =>
    if protectedTables.contains tableName then
      .error (.generic ("Cannot drop protected table '" ++ tableName ++ "'"), st)
    else
      .ok ({ columns := ["Result"],
             rows := [[.str ("Table '" ++ tableName ++ "' dropped successfully")]],
             rowCount := 0 },
           { schema := alistDel st.schema tableName, data := alistDel st.data tableName })

/-- First supplied-values loop of `executeInsert`: NOT NULL and type checks
per supplied column, building the new row (pure: the catalog is untouched
until the fill loop). -/
def insertSupplied (columnDefs : List ColumnDef) :
    List (String × Operand) → Row → Except JsErr Row
  | [], newRow => .ok newRow
  | (colName, v) :: rest, newRow =>
      match columnDefs.find? (fun c => c.name == colName) with
      | none => .error (.generic "TypeError")
      | some colDef =>
          let literalValue := getLiteralValue v
          if (colDef.notNull || colDef.isPrimaryKey) && isNullish literalValue then
            .error (.generic ("Column '" ++ colName ++ "' cannot be NULL"))
          else if !(isTypeCompatible literalValue colDef.type) then
            .error (.generic ("Value for column '" ++ colName ++ "' must be of type "
              ++ colDef.type))
          else insertSupplied columnDefs rest (alistSet newRow colName literalValue)

/-- Second loop of `executeInsert` over all column definitions: fill
missing columns (auto-increment via the counter, else null), re-check NOT
NULL and type, and bump the counter on auto-increment columns.  Counter
writes precede later checks, so an error can leave them behind. -/
def insertFill (tableName : String) :
    List ColumnDef → Row → SimState → Except (JsErr × SimState) (Row × SimState)
  | [], newRow, st => .ok (newRow, st)
  | colDef :: rest, newRow, st =>
      let filled :=
        if rowHas newRow colDef.name then (newRow, st)
        else if colDef.autoIncrement then
          let r := getNextAutoIncrementValue st tableName colDef.name
          (alistSet newRow colDef.name (.num r.1), r.2)
        else (alistSet newRow colDef.name .vnull, st)
      let newRow₁ := filled.1
      let st₁ := filled.2
      if (colDef.notNull || colDef.isPrimaryKey) && isNullish (rowGet newRow₁ colDef.name) then
        .error (.generic ("Column '" ++ colDef.name ++ "' cannot be NULL"), st₁)
      else if !(isTypeCompatible (rowGet newRow₁ colDef.name) colDef.type) then
        .error (.generic ("Value for column '" ++ colDef.name ++ "' must be of type "
          ++ colDef.type), st₁)
      else
        let st₂ := if colDef.autoIncrement then
            bumpAutoIncrementCounter st₁ tableName colDef.name (rowGet newRow₁ colDef.name)
          else st₁
        insertFill tableName rest newRow₁ st₂

/-- `Executor.executeInsert`: existence/protection checks, supplied-column
validation, the two row-building loops, the primary-key uniqueness check,
then the append. -/
def executeInsert (tableName : String) (columns : List String) (values : List Operand)
    (st : SimState) : Except (JsErr × SimState) (Output × SimState) :=
  match alistGet st.schema tableName with
  | none => .error (.generic ("Table '" ++ tableName ++ "' does not exist"), st)
  | some tableSchema =>
    if protectedTables.contains tableName then
      .error (.generic ("Cannot insert into protected table '" ++ tableName ++ "'"), st)
    else
      let columnDefs := resolveColumnDefinitions st tableName
      let primaryKey := getPrimaryKey tableSchema columnDefs
      let tableColumns := columnDefs.map (fun c => c.name)
      match columns.find? (fun col => !(tableColumns.contains col)) with
      | some col =>
          .error (.generic ("Column '" ++ col ++ "' does not exist in table '"
            ++ tableName ++ "'"), st)
      | none =>
        if columns.length ≠ values.length then
          .error (.generic ("Column count (" ++ toString columns.length
            ++ ") does not match value count (" ++ toString values.length ++ ")"), st)
        else
          match insertSupplied columnDefs (columns.zip values) [] with
          | .error e => .error (e, st)
          | .ok newRow₀ =>
            match insertFill tableName columnDefs newRow₀ st with
            | .error es => .error es
            | .ok rs =>
              let newRow := rs.1
              let st₁ := rs.2
              let pkErr : Option JsErr := match primaryKey with
                | none => none
                | some pk =>
                    let pkValue := rowGet newRow pk
                    if isNullish pkValue then
                      some (.generic ("Primary key '" ++ pk ++ "' cannot be NULL"))
                    else if ((alistGet st₁.data tableName).getD []).any
                        (fun row => decide (rowGet row pk = pkValue)) then
                      some (.generic ("Duplicate primary key value '" ++ jsToString pkValue
                        ++ "' for '" ++ pk ++ "'"))
                    else none
              match pkErr with
              | some e => .error (e, st₁)
              | none =>
                match alistGet st₁.data tableName with
                | none => .error (.generic "TypeError", st₁)
                | some rows =>
                    .ok ({ columns := ["Result"],
                           rows := [[.str ("1 row inserted into '" ++ tableName ++ "'")]],
                           rowCount := 1 },
                         { st₁ with data := alistSet st₁.data tableName (rows ++ [newRow]) })

/-- The per-row assignment loop of `executeUpdate`: checks, the primary-key
duplicate test against all other current rows, the in-place write, and the
auto-increment bump.  Earlier writes persist when a later check throws. -/
def updateAssignLoop (tableName : String) (columnDefs : List ColumnDef)
    (primaryKey : Option String) (i : ℕ) :
    List AssignmentAst → SimState → Except (JsErr × SimState) SimState
  | [], st => .ok st
  | a :: rest, st =>
      match columnDefs.find? (fun c => c.name == a.column) with
      | none => .error (.generic "TypeError", st)
      | some colDef =>
          let newValue := getLiteralValue a.value
          if (colDef.notNull || colDef.isPrimaryKey) && isNullish newValue then
            .error (.generic ("Column '" ++ a.column ++ "' cannot be NULL"), st)
          else if !(isTypeCompatible newValue colDef.type) then
            .error (.generic ("Value for column '" ++ a.column ++ "' must be of type "
              ++ colDef.type), st)
          else
            let rows := (alistGet st.data tableName).getD []
            let pkConflict := match primaryKey with
              | some pk =>
                  decide (a.column = pk) && ((List.range rows.length).any (fun j =>
                    !(j == i) && decide (rowGet (rows.getD j []) pk = newValue)))
              | none => false
            if pkConflict then
              .error (.generic ("Duplicate primary key value '" ++ jsToString newValue
                ++ "' for '" ++ (primaryKey.getD "") ++ "'"), st)
            else
              let rows' := match rows.get? i with
                | some row => rows.set i (alistSet row a.column newValue)
                | none => rows
              let st₁ : SimState := { st with data := alistSet st.data tableName rows' }
              let st₂ := if colDef.autoIncrement then
                  bumpAutoIncrementCounter st₁ tableName colDef.name newValue
                else st₁
              updateAssignLoop tableName columnDefs primaryKey i rest st₂

/-- The outer row loop of `executeUpdate` over the matched row indices. -/
def updateRowLoop (tableName : String) (columnDefs : List ColumnDef)
    (primaryKey : Option String) (assignments : List AssignmentAst) :
    List ℕ → SimState → Except (JsErr × SimState) SimState
  | [], st => .ok st
  | i :: rest, st =>
      match updateAssignLoop tableName columnDefs primaryKey i assignments st with
      | .error es => .error es
      | .ok st' => updateRowLoop tableName columnDefs primaryKey assignments rest st'

/-- Does a row (scoped under the target table) satisfy an UPDATE/DELETE
WHERE clause? -/
def rowMatchesWhere (tableName : String) (w : WhereAst) (row : Row) : Bool :=
  w.and.all (fun comp =>
    compareValues (evalOperandForModification comp.left [(tableName, row)] tableName)
      (evalOperandForModification comp.right [(tableName, row)] tableName)
      (opOrEq comp.operator))

/-- `Executor.executeUpdate`: checks, select the matched rows against the
pre-update data, then mutate them one by one (so an error on a later row
leaves earlier rows updated). -/
def executeUpdate (tableName : String) (assignments : List AssignmentAst)
    (whereClause : Option WhereAst) (st : SimState) :
    Except (JsErr × SimState) (Output × SimState) :=
  match alistGet st.schema tableName with
  | none => .error (.generic ("Table '" ++ tableName ++ "' does not exist"), st)
  | some tableSchema =>
    if protectedTables.contains tableName then
      .error (.generic ("Cannot update protected table '" ++ tableName ++ "'"), st)
    else
      let columnDefs := resolveColumnDefinitions st tableName
      let primaryKey := getPrimaryKey tableSchema columnDefs
      let tableColumns := columnDefs.map (fun c => c.name)
      match assignments.find? (fun a => !(tableColumns.contains a.column)) with
      | some a =>
          .error (.generic ("Column '" ++ a.column ++ "' does not exist in table '"
            ++ tableName ++ "'"), st)
      | none =>
          let rows₀ := (alistGet st.data tableName).getD []
          let idxs := match whereClause with
            | none => List.range rows₀.length
            | some w => (List.range rows₀.length).filter (fun i =>
                rowMatchesWhere tableName w (rows₀.getD i []))
          match updateRowLoop tableName columnDefs primaryKey assignments idxs st with
          | .error es => .error es
          | .ok st' =>
              .ok ({ columns := ["Result"],
                     rows := [[.str (toString idxs.length ++ " row(s) updated in '"
                       ++ tableName ++ "'")]],
                     rowCount := idxs.length }, st')

/-- `Executor.executeDelete`: checks, then truncate (no WHERE) or keep the
rows failing the predicate. -/
def executeDelete (tableName : String) (whereClause : Option WhereAst) (st : SimState) :
    Except (JsErr × SimState) (Output × SimState) :=
  match alistGet st.schema tableName with
  | none => .error (.generic ("Table '" ++ tableName ++ "' does not exist"), st)
  | some _ =>
    if protectedTables.contains tableName then
      .error (.generic ("Cannot delete from protected table '" ++ tableName ++ "'"), st)
    else
      let tableData := (alistGet st.data tableName).getD []
      match whereClause with
      | none =>
          .ok ({ columns := ["Result"],
                 rows := [[.str (toString tableData.length ++ " row(s) deleted from '"
                   ++ tableName ++ "'")]],
                 rowCount := tableData.length },
               { st with data := alistSet st.data tableName [] })
      | some w =>
          let deleted := tableData.filter (fun row => rowMatchesWhere tableName w row)
          let rowsToKeep := tableData.filter (fun row => !(rowMatchesWhere tableName w row))
          .ok ({ columns := ["Result"],
                 rows := [[.str (toString deleted.length ++ " row(s) deleted from '"
                   ++ tableName ++ "'")]],
                 rowCount := deleted.length },
               { st with data := alistSet st.data tableName rowsToKeep })

/-- The `executeQuery` entry point of executor.js: SELECT statements run
through the validator (which resolves names against the module schema, not
the caller's) and execute purely; DDL/DML dispatch to their methods.  The
returned state is the caller's catalog as left behind — mutated partially
when a method threw mid-way. -/
def runStatement (stmt : Statement) (st : SimState) : Except JsErr Output × SimState :=
  let r : Except (JsErr × SimState) (Output × SimState) :=
    match stmt with
    | .query q =>
        match validateQuery q st.schema with
        | .error e => .error (e, st)
        | .ok qs => .ok (executeSelect qs.2 qs.1 st.data, st)
    | .createTable t cols pk => executeCreateTable t cols pk st
    | .alterTable t col => executeAlterTable t col st
    | .dropTable t => executeDropTable t st
    | .insert t cols vals => executeInsert t cols vals st
    | .update t asgs w => executeUpdate t asgs w st
    | .delete t w => executeDelete t w st
  match r with
  | .error es => (.error es.1, es.2)
  | .ok os => (.ok os.1, os.2)

/-!
## Test fixtures

Small concrete catalogs used by the witnesses and counterexamples. -/

/-- A user table with a primary key and two rows (as `executeCreateTable`
followed by two inserts would build it). -/
def pkTestState : SimState :=
  { schema := [("t", { columns := [{ name := "id", type := "number", isPrimaryKey := true },
                                   { name := "v", type := "string" }],
                       primaryKey := some "id", isUserCreated := true,
                       autoIncrementCounters := some [] })],
    data := [("t", [[("id", .num 1), ("v", .str "a")],
                    [("id", .num 2), ("v", .str "b")]])] }

/-- An empty user table with an AUTO_INCREMENT primary key. -/
def aiTestState : SimState :=
  { schema := [("nums", { columns := [{ name := "id", type := "number", autoIncrement := true,
                                        isPrimaryKey := true },
                                      { name := "note", type := "string" }],
                          primaryKey := some "id", isUserCreated := true,
                          autoIncrementCounters := some [] })],
    data := [("nums", [])] }

/-!
## General lemmas about the embedded operations
-/

theorem alistGet_set_self {α : Type} (m : List (String × α)) (k : String) (v : α) :
    alistGet (alistSet m k v) k = some v := by
  induction m with
  | nil => simp [alistSet, alistGet]
  | cons p rest ih =>
      obtain ⟨k', v'⟩ := p
      by_cases h : k' = k
      · simp [alistSet, h, alistGet]
      · simp [alistSet, h, alistGet, ih]

theorem alistGet_set_ne {α : Type} (m : List (String × α)) (k k' : String) (v : α)
    (h : k' ≠ k) : alistGet (alistSet m k v) k' = alistGet m k' := by
  have h' : k ≠ k' := Ne.symm h
  induction m with
  | nil => simp [alistSet, alistGet, h']
  | cons p rest ih =>
      obtain ⟨k₀, v₀⟩ := p
      by_cases hk : k₀ = k
      · subst hk
        simp [alistSet, alistGet, h']
      · simp [alistSet, hk, alistGet, ih]

theorem alistGet_del_self {α : Type} (m : List (String × α)) (k : String) :
    alistGet (alistDel m k) k = none := by
  induction m with
  | nil => simp [alistDel, alistGet]
  | cons p rest ih =>
      obtain ⟨k₀, v₀⟩ := p
      simp only [alistDel] at ih ⊢
      rw [List.filter_cons]
      by_cases hk : k₀ = k
      · simp [hk, ih]
      · simp [hk, alistGet, ih]

theorem alistGet_del_ne {α : Type} (m : List (String × α)) (k k' : String)
    (h : k' ≠ k) : alistGet (alistDel m k) k' = alistGet m k' := by
  induction m with
  | nil => simp [alistDel, alistGet]
  | cons p rest ih =>
      obtain ⟨k₀, v₀⟩ := p
      simp only [alistDel] at ih ⊢
      rw [List.filter_cons]
      by_cases hk : k₀ = k
      · subst hk
        simp [alistGet, Ne.symm h, ih]
      · simp [hk, alistGet, ih]

/-!
## C3 — NULL never satisfies any comparison operator

`compareValues` is the single comparison evaluator: `applyJoin` (JOIN ON),
`applyWhere` (SELECT WHERE) and `rowMatchesWhere` (UPDATE/DELETE WHERE)
all call it, so this covers every comparison site. -/

/-- C3: for every operator among =, !=, <, <=, >, >=, LIKE and every pair
of operand values, a Null operand on either side makes the comparison
evaluate to false. -/
theorem nullComparisonAlwaysFalse (op : String) (left right : JsValue)
    (_hop : op ∈ ["=", "!=", "<", "<=", ">", ">=", "LIKE"])
    (h : left = JsValue.vnull ∨ right = JsValue.vnull) :
    compareValues left right op = false := by
  rcases h with h | h <;> subst h <;> simp [compareValues, isNullish]

/-- Witness for C3 at concrete inputs. -/
theorem nullComparisonAlwaysFalse_witness :
    compareValues JsValue.vnull (JsValue.num 5) "=" = false ∧
    compareValues (JsValue.str "x") JsValue.vnull "LIKE" = false :=
  ⟨nullComparisonAlwaysFalse "=" JsValue.vnull (JsValue.num 5) (by decide) (Or.inl rfl),
   nullComparisonAlwaysFalse "LIKE" (JsValue.str "x") JsValue.vnull (by decide) (Or.inr rfl)⟩

/-!
## C10 — Number() coercion in comparisons
-/

/-- Counterexample to C10 as stated: a Null operand coerces to 0 (not NaN)
yet the comparison is false rather than the numeric result, and LIKE never
compares numerically even when both operands coerce to the same number. -/
theorem comparisonNumericCoercion_counterexample :
    (jsToNumber JsValue.vnull = some 0 ∧ jsToNumber (JsValue.num 0) = some 0 ∧
      compareValues JsValue.vnull (JsValue.num 0) "=" = false) ∧
    (jsToNumber (JsValue.num 5) = some 5 ∧ jsToNumber (JsValue.str "05") = some 5 ∧
      compareValues (JsValue.num 5) (JsValue.str "05") "LIKE" = false) := by
  decide

/-- C10 (amended): for non-Null operands and the non-LIKE operators, both
operands are coerced with `Number()` and compared numerically whenever
neither coercion is NaN; in particular a column holding 0 equals the empty
string, and the string "10" equals the number 10. -/
theorem comparisonNumericCoercion (v w : JsValue) (a b : ℚ)
    (hv : isNullish v = false) (hw : isNullish w = false)
    (ha : jsToNumber v = some a) (hb : jsToNumber w = some b) :
    compareValues v w "=" = decide (a = b) ∧
    compareValues v w "!=" = !(decide (a = b)) ∧
    compareValues v w "<" = decide (a < b) ∧
    compareValues v w "<=" = decide (a ≤ b) ∧
    compareValues v w ">" = decide (b < a) ∧
    compareValues v w ">=" = decide (b ≤ a) ∧
    compareValues (JsValue.num 0) (JsValue.str "") "=" = true ∧
    compareValues (JsValue.str "10") (JsValue.num 10) "=" = true := by
  have hle : (!(decide (b < a))) = decide (a ≤ b) := by
    by_cases h : b < a
    · simp [h, not_le.mpr h]
    · simp [h, not_lt.mp h]
  have hge : (!(decide (a < b))) = decide (b ≤ a) := by
    by_cases h : a < b
    · simp [h, not_le.mpr h]
    · simp [h, not_lt.mp h]
  have hbe : ((a == b)) = decide (a = b) := by
    by_cases h : a = b <;> simp [h]
  refine ⟨?_, ?_, ?_, ?_, ?_, ?_, by decide, by decide⟩ <;>
    simp [compareValues, hv, hw, ha, hb, numCmpOp, hle, hge, hbe]

/-- Witness for C10 at concrete inputs. -/
theorem comparisonNumericCoercion_witness :
    compareValues (JsValue.str "10") (JsValue.num 10) "=" = decide ((10 : ℚ) = 10) ∧
    compareValues (JsValue.str "10") (JsValue.num 10) "<" = decide ((10 : ℚ) < 10) :=
  ⟨(comparisonNumericCoercion (JsValue.str "10") (JsValue.num 10) 10 10
      (by decide) (by decide) (by decide) (by decide)).1,
   (comparisonNumericCoercion (JsValue.str "10") (JsValue.num 10) 10 10
      (by decide) (by decide) (by decide) (by decide)).2.2.1⟩

/-!
## C4 — SELECT DISTINCT tutor_group_id FROM students ORDER BY tutor_group_id
-/

/-- Modelled from the spec: the AST the parser produces for the statement
`SELECT DISTINCT tutor_group_id FROM students ORDER BY tutor_group_id`
(grammar of section 4.4: DISTINCT flag on the select list, one unqualified
column item, ORDER BY defaulting to ASC).  The snapshot's parser copy is a
stale version that cannot parse DISTINCT, so this parse is taken from the
spec; validation and execution below are the embedded source. -/
def distinctTutorGroupQueryAst : QueryAst :=
  { select := { star := false, distinct := true,
                items := [{ kind := .colRef { column := "tutor_group_id" } }] },
    fromTable := "students",
    orderBy := some { column := { column := "tutor_group_id" }, direction := "ASC" } }

/-- C4: on the freshly seeded catalog the DISTINCT query succeeds and
returns exactly [[1],[2],[3]] in that order (catalog untouched). -/
theorem seedDistinctTutorGroupQuery :
    runStatement (.query distinctTutorGroupQueryAst) seedState =
      (.ok { columns := ["tutor_group_id"],
             rows := [[.num 1], [.num 2], [.num 3]], rowCount := 3 }, seedState) := by
  decide

/-!
## C8 — CREATE TABLE type synonyms
-/

/-- Modelled from the spec: the column-type normalisation of the current
`Parser.parseCreateTable` (the parser copy in the snapshot is a stale
version that rejects most of these names and also fails the repository's
own test-suite, so the normalisation table is taken from the spec, section
6): INT/INTEGER/NUMBER/DECIMAL/FLOAT/NUMERIC/REAL/DOUBLE map to the number
type, VARCHAR/CHAR/TEXT/STRING to string, BOOLEAN/BOOL to boolean, and any
other identifier is a SyntaxError; keyword matching is case-insensitive. -/
def normalizeColumnType (t : String) : Except JsErr String :=
  let ty := String.mk (t.toList.map lowerChar)
  if ["int", "integer", "number", "decimal", "float", "numeric", "real",
      "double"].contains ty then .ok "number"
  else if ["varchar", "char", "text", "string"].contains ty then .ok "string"
  else if ["boolean", "bool"].contains ty then .ok "boolean"
  else .error (createSyntaxError ("Unknown column type: " ++ ty))

/-- C8: every listed synonym normalises to its type, and any identifier
outside the list is a SyntaxError. -/
theorem createTableTypeSynonyms (s : String)
    (hs : ¬ (String.mk (s.toList.map lowerChar)) ∈
      ["int", "integer", "number", "decimal", "float", "numeric", "real", "double",
       "varchar", "char", "text", "string", "boolean", "bool"]) :
    (∀ t ∈ ["INT", "INTEGER", "NUMBER", "DECIMAL", "FLOAT", "NUMERIC", "REAL", "DOUBLE"],
      normalizeColumnType t = .ok "number") ∧
    (∀ t ∈ ["VARCHAR", "CHAR", "TEXT", "STRING"], normalizeColumnType t = .ok "string") ∧
    (∀ t ∈ ["BOOLEAN", "BOOL"], normalizeColumnType t = .ok "boolean") ∧
    (∃ msg, normalizeColumnType s = .error (.sqlError "SYNTAX_ERROR" msg none)) := by
  refine ⟨by decide, by decide, by decide, ?_⟩
  refine ⟨"Syntax error: " ++ ("Unknown column type: " ++ String.mk (s.toList.map lowerChar)) ++
    ". Tip: check spelling, punctuation (commas, parentheses), and that you are only using supported features.", ?_⟩
  simp only [List.mem_cons, List.not_mem_nil, or_false, String.toList] at hs
  push_neg at hs
  obtain ⟨e1, e2, e3, e4, e5, e6, e7, e8, e9, e10, e11, e12, e13, e14⟩ := hs
  simp [normalizeColumnType, createSyntaxError, String.toList,
    e1, e2, e3, e4, e5, e6, e7, e8, e9, e10, e11, e12, e13, e14]

/-- Witness for C8: INT is a number, and the identifier datetime (outside
the synonym table) is a SyntaxError. -/
theorem createTableTypeSynonyms_witness :
    normalizeColumnType "INT" = .ok "number" ∧
    (∃ msg, normalizeColumnType "datetime" = .error (.sqlError "SYNTAX_ERROR" msg none)) :=
  ⟨(createTableTypeSynonyms "datetime" (by decide)).1 "INT" (by decide),
   (createTableTypeSynonyms "datetime" (by decide)).2.2.2⟩

/-!
## C9 — the validator ignores the schema argument
-/

/-- C9: `validate` stores but never consults its schema argument; it
resolves tables against the module-level seed schema, so a SELECT from a
table present only in the caller's catalog fails with UNKNOWN_TABLE no
matter what schema object is passed — even though `buildFromRowset` would
happily read that table's rows from the supplied data. -/
theorem validatorIgnoresCallerSchema (tname : String) (schemaArg : List (String × TableSchema))
    (ts : TableSchema) (rows : List Row)
    (habsent : hasTable tname = false) :
    validateQuery { select := { star := true }, fromTable := tname } schemaArg
      = .error (createUnknownTableError tname none) ∧
    runStatement (.query { select := { star := true }, fromTable := tname })
        { schema := [(tname, ts)], data := [(tname, rows)] }
      = (.error (createUnknownTableError tname none),
         { schema := [(tname, ts)], data := [(tname, rows)] }) ∧
    buildFromRowset tname [(tname, rows)] = rows.map (fun r => [(tname, r)]) := by
  have hv : validateQuery { select := { star := true }, fromTable := tname } schemaArg
      = .error (createUnknownTableError tname none) := by
    simp [validateQuery, habsent, throw, throwThe, MonadExceptOf.throw, Functor.map, Except.map, bind, Except.bind, pure, Except.pure]
  have hv2 : ∀ sa, validateQuery { select := { star := true }, fromTable := tname } sa
      = .error (createUnknownTableError tname none) := by
    intro sa
    simp [validateQuery, habsent, throw, throwThe, MonadExceptOf.throw, Functor.map, Except.map, bind, Except.bind, pure, Except.pure]
  refine ⟨hv, ?_, ?_⟩
  · simp [runStatement, hv2]
  · simp [buildFromRowset, alistGet]

/-!
## C5 — SELECT * with GROUP BY
-/

/-- Splitting a successful bind of fallible computations. -/
theorem except_bind_ok {ε α β : Type} {m : Except ε α} {f : α → Except ε β} {b : β}
    (h : m.bind f = .ok b) : ∃ a, m = .ok a ∧ f a = .ok b := by
  cases m with
  | error e => simp [Except.bind] at h
  | ok a => exact ⟨a, rfl, by simpa [Except.bind] using h⟩

/-- On a star select the validator keeps the star flag and items list and
preserves whether a GROUP BY clause is present — in particular the GROUP BY
discipline check is skipped entirely. -/
theorem validateQuery_ok_star (q : QueryAst) (sa : List (String × TableSchema))
    (q' : QueryAst) (scope : List String)
    (hok : validateQuery q sa = .ok (q', scope))
    (hstar : q.select.star = true) :
    q'.select.star = true ∧ q'.select.items = q.select.items ∧
    q'.groupBy.isSome = q.groupBy.isSome := by
  unfold validateQuery at hok
  simp only [bind, hstar, if_true, ite_true, Bool.not_true] at hok
  cases hht : hasTable q.fromTable with
  | false =>
      rw [hht] at hok
      simp [throw, throwThe, MonadExceptOf.throw, Except.bind] at hok
  | true =>
      rw [hht] at hok
      simp only [Bool.not_true, Bool.false_eq_true, if_false, ite_false, pure, Except.pure,
        Except.bind] at hok
      rcases except_bind_ok hok with ⟨js, hjs, hok⟩
      rcases except_bind_ok hok with ⟨gb', hgb, hok⟩
      rcases except_bind_ok hok with ⟨wh', hwh, hok⟩
      rcases except_bind_ok hok with ⟨ob', hob, hok⟩
      simp only [Except.ok.injEq, Prod.mk.injEq] at hok
      obtain ⟨hq', hscope⟩ := hok
      subst hq'
      refine ⟨rfl, rfl, ?_⟩
      cases hgbq : q.groupBy with
      | none =>
          rw [hgbq] at hgb
          simp only [Except.ok.injEq] at hgb
          simp [← hgb]
      | some g =>
          rw [hgbq] at hgb
          rcases except_bind_ok hgb with ⟨cols, hcols, hgb⟩
          simp only [Except.ok.injEq] at hgb
          simp [← hgb]

/-- With no output columns the order column cannot be located, and the
rows are returned unsorted. -/
theorem applyOrderBy_nil_columns (o : OrderByAst) (rows : List (List JsValue)) :
    applyOrderBy o rows [] = rows := rfl

/-- Rows surviving `applyDistinct` come from the input. -/
theorem mem_applyDistinct (rows : List (List JsValue)) (r : List JsValue)
    (h : r ∈ applyDistinct rows) : r ∈ rows := by
  have aux : ∀ (l : List (List JsValue)) (acc : List String × List (List JsValue)),
      ∀ x ∈ (List.foldl (fun (acc : List String × List (List JsValue)) (row : List JsValue) =>
        if acc.1.contains (jsonRowKey row) then acc
        else (acc.1 ++ [jsonRowKey row], acc.2 ++ [row])) acc l).2,
        x ∈ acc.2 ∨ x ∈ l := by
    intro l
    induction l with
    | nil => intro acc x hx; exact Or.inl hx
    | cons y ys ih =>
        intro acc x hx
        simp only [List.foldl_cons] at hx
        rcases ih _ x hx with h' | h'
        · by_cases hc : acc.1.contains (jsonRowKey y)
          · rw [if_pos hc] at h'
            exact Or.inl h'
          · rw [if_neg hc] at h'
            rcases List.mem_append.mp h' with h'' | h''
            · exact Or.inl h''
            · simp at h''
              subst h''
              exact Or.inr (List.mem_cons_self _ _)
        · exact Or.inr (List.mem_cons_of_mem _ h')
  rcases aux rows ([], []) r h with h' | h'
  · simp at h'
  · exact h'

/-- A grouped query with an empty item list projects every group to an
empty row and an empty column list, whatever else the query contains. -/
theorem executeSelect_star_groupBy (scope : List String) (q' : QueryAst)
    (data : List (String × List Row)) (g : GroupByAst)
    (hitems : q'.select.items = []) (hg : q'.groupBy = some g) :
    (executeSelect scope q' data).columns = [] ∧
    (∀ r ∈ (executeSelect scope q' data).rows, r = []) ∧
    (executeSelect scope q' data).rowCount = (executeSelect scope q' data).rows.length := by
  unfold executeSelect
  rw [hitems, hg]
  simp only [List.any_nil, applySelectWithGroupBy, List.map_nil]
  rcases hlim : q'.limit with _ | n <;> rcases hob2 : q'.orderBy with _ | o <;>
    rcases hdist : q'.select.distinct with _ | _ <;>
    simp only [hlim, hob2, hdist, Bool.false_eq_true, if_false, if_true, ite_true, ite_false,
      applyOrderBy_nil_columns] <;>
    refine ⟨trivial, ?_, trivial⟩ <;>
    intro r hr <;>
    first
      | (rcases List.mem_map.mp hr with ⟨p, hp1, hp⟩; exact hp.symm)
      | (rcases List.mem_map.mp (mem_applyDistinct _ _ hr) with ⟨p, hp1, hp⟩; exact hp.symm)
      | (rcases List.mem_map.mp (List.mem_of_mem_take hr) with ⟨p, hp1, hp⟩; exact hp.symm)
      | (rcases List.mem_map.mp (mem_applyDistinct _ _ (List.mem_of_mem_take hr))
           with ⟨p, hp1, hp⟩; exact hp.symm)

/-- AST of `SELECT * FROM students GROUP BY tutor_group_id`: a star select
list (empty items, as the parser builds it) plus a GROUP BY clause. -/
def starGroupBySeedQueryAst : QueryAst :=
  { select := { star := true, distinct := false, items := [] },
    fromTable := "students",
    groupBy := some { columns := [{ column := "tutor_group_id" }] } }

/-- Counterexample to C5 as stated: `SELECT *` with GROUP BY is not
rejected — on the seed catalog it succeeds and produces a result table
(empty column list, one empty row per group). -/
theorem starWithGroupByAccepted_counterexample :
    runStatement (.query starGroupBySeedQueryAst) seedState
      = (.ok { columns := [], rows := [[], [], []], rowCount := 3 }, seedState) := by
  decide

/-- C5 (amended): a SELECT whose select list is `*` and which contains a
GROUP BY clause is not rejected; the validator skips its GROUP BY
discipline check for star selects, and whenever such a query executes
successfully it produces a degenerate result table: no columns, and one
empty row per group. -/
theorem starWithGroupByEmptyProjection (st : SimState) (q : QueryAst) (out : Output)
    (hstar : q.select.star = true) (hitems : q.select.items = [])
    (hg : q.groupBy.isSome = true)
    (hok : (runStatement (.query q) st).1 = .ok out) :
    out.columns = [] ∧ (∀ r ∈ out.rows, r = []) ∧ out.rowCount = out.rows.length := by
  rcases hv : validateQuery q st.schema with e | qs
  · simp only [runStatement, hv] at hok
    simp at hok
  · obtain ⟨q', scope⟩ := qs
    obtain ⟨hstar', hitems', hgb'⟩ := validateQuery_ok_star q st.schema q' scope hv hstar
    rw [hitems] at hitems'
    have hout : executeSelect scope q' st.data = out := by
      simp only [runStatement, hv] at hok
      simpa using hok
    have hgb2 : q'.groupBy.isSome = true := by rw [hgb', hg]
    rcases hq'g : q'.groupBy with _ | g'
    · rw [hq'g] at hgb2
      simp at hgb2
    · have hmain := executeSelect_star_groupBy scope q' st.data g' hitems' hq'g
      rw [hout] at hmain
      exact hmain

/-- Witness for C5's amended statement on the seed catalog. -/
theorem starWithGroupByEmptyProjection_witness :
    ({ columns := [], rows := [[], [], []], rowCount := 3 } : Output).columns = [] ∧
    (∀ r ∈ ({ columns := [], rows := [[], [], []], rowCount := 3 } : Output).rows, r = []) ∧
    ({ columns := [], rows := [[], [], []], rowCount := 3 } : Output).rowCount =
      ({ columns := [], rows := [[], [], []], rowCount := 3 } : Output).rows.length :=
  starWithGroupByEmptyProjection seedState starGroupBySeedQueryAst
    { columns := [], rows := [[], [], []], rowCount := 3 }
    (by decide) (by decide) (by decide) (by decide)

/-!
## C2 — protected tables
-/

/-- Counterexample to C2 as stated: INSERT into the protected students
table on the seed catalog is rejected, but the thrown error is a plain
`Error` carrying only a message — not an `SqlError` of any kind, let alone
a ConstraintViolation(ProtectedTable) (no such code exists in errors.js). -/
theorem protectedTableErrorKind_counterexample :
    runStatement (.insert "students" ["student_id"] [.lit (.num 99)]) seedState
      = (.error (.generic "Cannot insert into protected table 'students'"), seedState) ∧
    ∀ code msg pos,
      (runStatement (.insert "students" ["student_id"] [.lit (.num 99)]) seedState).1
        ≠ .error (.sqlError code msg pos) := by
  have h1 : runStatement (.insert "students" ["student_id"] [.lit (.num 99)]) seedState
      = (.error (.generic "Cannot insert into protected table 'students'"), seedState) := by
    decide
  refine ⟨h1, ?_⟩
  intro code msg pos hc
  rw [h1] at hc
  simp at hc

/-- C2 (amended): every INSERT/UPDATE/DELETE/ALTER/DROP targeting
students, tutor_groups or grades returns an error and leaves the catalog
unchanged, in every catalog state (a protected-table message when the
table exists in the schema, a does-not-exist message otherwise); CREATE
TABLE with a protected name errors (because the name exists) whenever the
catalog holds the seed tables.  The errors are plain messages; the engine
has no ConstraintViolation/ProtectedTable error kind. -/
theorem protectedTableMutationFails (st : SimState) (t : String)
    (ht : t ∈ protectedTables) :
    (∀ cols vals, ∃ e, runStatement (.insert t cols vals) st = (.error e, st)) ∧
    (∀ asgs w, ∃ e, runStatement (.update t asgs w) st = (.error e, st)) ∧
    (∀ w, ∃ e, runStatement (.delete t w) st = (.error e, st)) ∧
    (∀ col, ∃ e, runStatement (.alterTable t col) st = (.error e, st)) ∧
    (∃ e, runStatement (.dropTable t) st = (.error e, st)) ∧
    (((alistGet st.schema t).isSome || (alistGet st.data t).isSome) = true →
      ∀ cols pk, ∃ e, runStatement (.createTable t cols pk) st = (.error e, st)) := by
  have hcont : protectedTables.contains t = true := by
    simpa [protectedTables] using ht
  refine ⟨?_, ?_, ?_, ?_, ?_, ?_⟩
  · intro cols vals
    cases hsch : alistGet st.schema t with
    | none => exact ⟨.generic ("Table '" ++ t ++ "' does not exist"),
        by simp [runStatement, executeInsert, hsch]⟩
    | some ts => exact ⟨.generic ("Cannot insert into protected table '" ++ t ++ "'"),
        by simp [runStatement, executeInsert, hsch, hcont, ht]⟩
  · intro asgs w
    cases hsch : alistGet st.schema t with
    | none => exact ⟨.generic ("Table '" ++ t ++ "' does not exist"),
        by simp [runStatement, executeUpdate, hsch]⟩
    | some ts => exact ⟨.generic ("Cannot update protected table '" ++ t ++ "'"),
        by simp [runStatement, executeUpdate, hsch, hcont, ht]⟩
  · intro w
    cases hsch : alistGet st.schema t with
    | none => exact ⟨.generic ("Table '" ++ t ++ "' does not exist"),
        by simp [runStatement, executeDelete, hsch]⟩
    | some ts => exact ⟨.generic ("Cannot delete from protected table '" ++ t ++ "'"),
        by simp [runStatement, executeDelete, hsch, hcont, ht]⟩
  · intro col
    cases hsch : alistGet st.schema t with
    | none => exact ⟨.generic ("Table '" ++ t ++ "' does not exist"),
        by simp [runStatement, executeAlterTable, hsch]⟩
    | some ts => exact ⟨.generic ("Cannot alter protected table '" ++ t ++ "'"),
        by simp [runStatement, executeAlterTable, hsch, hcont, ht]⟩
  · cases hsch : alistGet st.schema t with
    | none => exact ⟨.generic ("Table '" ++ t ++ "' does not exist"),
        by simp [runStatement, executeDropTable, hsch]⟩
    | some ts => exact ⟨.generic ("Cannot drop protected table '" ++ t ++ "'"),
        by simp [runStatement, executeDropTable, hsch, hcont, ht]⟩
  · intro hpresent cols pk
    exact ⟨.generic ("Table '" ++ t ++ "' already exists"),
      by simp [runStatement, executeCreateTable, hpresent]⟩

/-- Witness for C2 at concrete statements on the seed catalog. -/
theorem protectedTableMutationFails_witness :
    (∃ e, runStatement (.insert "students" [] []) seedState = (.error e, seedState)) ∧
    (∃ e, runStatement (.dropTable "grades") seedState = (.error e, seedState)) ∧
    (∃ e, runStatement (.createTable "tutor_groups" [] none) seedState = (.error e, seedState)) :=
  ⟨(protectedTableMutationFails seedState "students" (by decide)).1 [] [],
   (protectedTableMutationFails seedState "grades" (by decide)).2.2.2.2.1,
   (protectedTableMutationFails seedState "tutor_groups" (by decide)).2.2.2.2.2 (by decide) [] none⟩

/-!
## C1 — per-statement atomicity
-/

/-- Counterexample to C1 as stated: on a two-row table with primary key
id, the UPDATE setting id to 3 under a WHERE matching both rows fails its
primary-key check on the second matched row, yet the first matched row has
already been rewritten — the catalog after the error differs from the
pre-call catalog. -/
theorem updateNonAtomic_counterexample :
    runStatement (.update "t" [{ column := "id", value := .lit (.num 3) }]
        (some { and := [{ left := .colRef { column := "id" },
                          operator := ">", right := .lit (.num 0) }] })) pkTestState
      = (.error (.generic "Duplicate primary key value '3' for 'id'"),
         { pkTestState with data := [("t", [[("id", .num 3), ("v", .str "a")],
                                            [("id", .num 2), ("v", .str "b")]])] }) ∧
    (runStatement (.update "t" [{ column := "id", value := .lit (.num 3) }]
        (some { and := [{ left := .colRef { column := "id" },
                          operator := ">", right := .lit (.num 0) }] })) pkTestState).2
      ≠ pkTestState := by
  decide

/-- C1 (amended): SELECT statements never change the catalog, and UPDATE
errors raised before the per-row mutation loop (here: an assignment naming
a column the table does not have) leave the catalog unchanged; but UPDATE
mutates matched rows in place, so a NOT NULL / type / primary-key failure
on a later matched row leaves the earlier matched rows modified (the
counterexample exhibits this). -/
theorem updateErrorBeforeMutationPreservesCatalog (st : SimState) (t : String)
    (asgs : List AssignmentAst) (w : Option WhereAst) (ts : TableSchema) (a : AssignmentAst)
    (hsch : alistGet st.schema t = some ts)
    (hprot : protectedTables.contains t = false)
    (hfind : asgs.find? (fun x =>
        !(((resolveColumnDefinitions st t).map (fun c => c.name)).contains x.column)) = some a) :
    runStatement (.update t asgs w) st
      = (.error (.generic ("Column '" ++ a.column ++ "' does not exist in table '"
          ++ t ++ "'")), st) ∧
    (∀ (q : QueryAst) (st' : SimState), (runStatement (.query q) st').2 = st') := by
  have hmem : t ∉ protectedTables := by
    simpa using hprot
  constructor
  · simp only [runStatement, executeUpdate, hsch]
    simp only [hfind, hmem]
    simp [hmem]
  · intro q st'
    rcases hv : validateQuery q st'.schema with e | qs <;> simp [runStatement, hv]

/-- Witness for C1's amended statement at a concrete catalog. -/
theorem updateErrorBeforeMutationPreservesCatalog_witness :
    runStatement (.update "t" [{ column := "zzz", value := .lit (.num 1) }] none) pkTestState
      = (.error (.generic "Column 'zzz' does not exist in table 't'"), pkTestState) :=
  (updateErrorBeforeMutationPreservesCatalog pkTestState "t"
    [{ column := "zzz", value := .lit (.num 1) }] none
    { columns := [{ name := "id", type := "number", isPrimaryKey := true },
                  { name := "v", type := "string" }],
      primaryKey := some "id", isUserCreated := true,
      autoIncrementCounters := some [] }
    { column := "zzz", value := .lit (.num 1) }
    (by decide) (by decide) (by decide)).1

/-- Witness for C9: the table mytable exists only in the caller's catalog. -/
theorem validatorIgnoresCallerSchema_witness :
    runStatement (.query { select := { star := true }, fromTable := "mytable" })
        { schema := [("mytable", { columns := [{ name := "a", type := "number" }] })],
          data := [("mytable", [[("a", JsValue.num 7)]])] }
      = (.error (createUnknownTableError "mytable" none),
         { schema := [("mytable", { columns := [{ name := "a", type := "number" }] })],
           data := [("mytable", [[("a", JsValue.num 7)]])] }) :=
  (validatorIgnoresCallerSchema "mytable"
    [("mytable", { columns := [{ name := "a", type := "number" }] })]
    { columns := [{ name := "a", type := "number" }] }
    [[("a", JsValue.num 7)]] (by decide)).2.1

/-!
## C7 — ORDER BY semantics
-/

/-- The sort key `applyOrderBy` reads from a projected row: the value at
the order-column index, with a missing index reading as `undefined`. -/
def rowKey (i : ℕ) (r : List JsValue) : JsValue :=
  (r.get? i).getD (JsValue.vundef)

/-- The rational behind a numeric sort key (0 on non-numeric values; only
consulted under the hypothesis that the key is numeric). -/
def keyQ (i : ℕ) (r : List JsValue) : ℚ :=
  match rowKey i r with
  | .num q => q
  | _ => 0

theorem keyQ_spec {i : ℕ} {r : List JsValue} {q : ℚ} (h : rowKey i r = JsValue.num q) :
    keyQ i r = q := by
  simp [keyQ, h]

theorem orderedInsertJs_perm {α : Type} (cmp : α → α → ℤ) (x : α) (l : List α) :
    List.Perm (orderedInsertJs cmp x l) (x :: l) := by
  induction l with
  | nil => simp [orderedInsertJs]
  | cons y ys ih =>
      by_cases h : cmp x y ≤ 0
      · simp [orderedInsertJs, h]
      · simp only [orderedInsertJs, if_neg h]
        exact (ih.cons y).trans (List.Perm.swap x y ys)

theorem stableSortJs_perm {α : Type} (cmp : α → α → ℤ) (l : List α) :
    List.Perm (stableSortJs cmp l) l := by
  induction l with
  | nil => simp [stableSortJs]
  | cons x xs ih =>
      exact (orderedInsertJs_perm cmp x (stableSortJs cmp xs)).trans (ih.cons x)

theorem mem_stableSortJs {α : Type} {cmp : α → α → ℤ} {l : List α} {a : α}
    (h : a ∈ stableSortJs cmp l) : a ∈ l :=
  (stableSortJs_perm cmp l).mem_iff.mp h

theorem mem_orderedInsertJs {α : Type} {cmp : α → α → ℤ} {x a : α} {l : List α}
    (h : a ∈ orderedInsertJs cmp x l) : a = x ∨ a ∈ l := by
  have h2 := (orderedInsertJs_perm cmp x l).mem_iff.mp h
  simpa using h2

theorem orderedInsertJs_pairwise {α : Type} (cmp : α → α → ℤ) (k : α → ℚ) (x : α)
    (l : List α)
    (hcx : ∀ b ∈ l, (cmp x b ≤ 0 ↔ k x ≤ k b))
    (hsort : l.Pairwise (fun a b => k a ≤ k b)) :
    (orderedInsertJs cmp x l).Pairwise (fun a b => k a ≤ k b) := by
  induction l with
  | nil => simp [orderedInsertJs]
  | cons y ys ih =>
      rcases List.pairwise_cons.mp hsort with ⟨hy, hys⟩
      by_cases h : cmp x y ≤ 0
      · have hxy : k x ≤ k y := (hcx y (by simp)).mp h
        simp only [orderedInsertJs, if_pos h]
        refine List.pairwise_cons.mpr ⟨?_, hsort⟩
        intro b hb
        rcases List.mem_cons.mp hb with rfl | hb2
        · exact hxy
        · exact le_trans hxy (hy b hb2)
      · have hyx : k y ≤ k x := by
          have hnot : ¬ k x ≤ k y := fun hk => h ((hcx y (by simp)).mpr hk)
          exact le_of_not_le hnot
        simp only [orderedInsertJs, if_neg h]
        refine List.pairwise_cons.mpr ⟨?_, ih (fun b hb => hcx b (by simp [hb])) hys⟩
        intro b hb
        rcases mem_orderedInsertJs hb with rfl | hb2
        · exact hyx
        · exact hy b hb2

theorem stableSortJs_pairwise {α : Type} (cmp : α → α → ℤ) (k : α → ℚ) (l : List α)
    (hc : ∀ a ∈ l, ∀ b ∈ l, (cmp a b ≤ 0 ↔ k a ≤ k b)) :
    (stableSortJs cmp l).Pairwise (fun a b => k a ≤ k b) := by
  induction l with
  | nil => simp [stableSortJs]
  | cons x xs ih =>
      have ih2 := ih (fun a ha b hb => hc a (by simp [ha]) b (by simp [hb]))
      refine orderedInsertJs_pairwise cmp k x (stableSortJs cmp xs) ?_ ih2
      intro b hb
      exact hc x (by simp) b (by simp [mem_stableSortJs hb])

theorem orderedInsertJs_filter_key {α : Type} (cmp : α → α → ℤ) (k : α → ℚ) (x : α)
    (l : List α)
    (hcx : ∀ b ∈ l, (cmp x b ≤ 0 ↔ k x ≤ k b)) (v : ℚ) :
    (orderedInsertJs cmp x l).filter (fun r => decide (k r = v))
      = (if k x = v then x :: l.filter (fun r => decide (k r = v))
         else l.filter (fun r => decide (k r = v))) := by
  induction l with
  | nil =>
      by_cases hv : k x = v <;> simp [orderedInsertJs, List.filter, hv]
  | cons y ys ih =>
      have ih2 := ih (fun b hb => hcx b (by simp [hb]))
      by_cases h : cmp x y ≤ 0
      · by_cases hv : k x = v <;>
          simp [orderedInsertJs, if_pos h, List.filter_cons, hv]
      · have hyx : k y < k x := by
          have hnot : ¬ k x ≤ k y := fun hk => h ((hcx y (by simp)).mpr hk)
          exact lt_of_not_le hnot
        simp only [orderedInsertJs, if_neg h, List.filter_cons]
        by_cases hyv : k y = v
        · have hxv : ¬ k x = v := by
            intro hx
            rw [hx, ← hyv] at hyx
            exact lt_irrefl (k y) hyx
          rw [ih2]
          simp [hxv, hyv]
        · rw [ih2]
          by_cases hv : k x = v <;> simp [hv, List.filter_cons, hyv]

theorem stableSortJs_filter_key {α : Type} (cmp : α → α → ℤ) (k : α → ℚ) (l : List α)
    (hc : ∀ a ∈ l, ∀ b ∈ l, (cmp a b ≤ 0 ↔ k a ≤ k b)) (v : ℚ) :
    (stableSortJs cmp l).filter (fun r => decide (k r = v))
      = l.filter (fun r => decide (k r = v)) := by
  induction l with
  | nil => simp [stableSortJs]
  | cons x xs ih =>
      have ih2 := ih (fun a ha b hb => hc a (by simp [ha]) b (by simp [hb]))
      have hcx : ∀ b ∈ stableSortJs cmp xs, (cmp x b ≤ 0 ↔ k x ≤ k b) := by
        intro b hb
        exact hc x (by simp) b (by simp [mem_stableSortJs hb])
      simp only [stableSortJs]
      rw [orderedInsertJs_filter_key cmp k x (stableSortJs cmp xs) hcx v, ih2,
        List.filter_cons]
      by_cases hv : k x = v <;> simp [hv]

theorem valueCmpJs_num (x y : ℚ) :
    valueCmpJs (.num x) (.num y) = if x < y then -1 else if y < x then 1 else 0 := by
  simp [valueCmpJs, jsLt, jsToNumber]

theorem rowCmpJs_eq_valueCmpJs (d : String) (hd : d ≠ "DESC") (i : ℕ)
    (a b : List JsValue) :
    rowCmpJs d i a b = valueCmpJs (rowKey i a) (rowKey i b) := by
  simp [rowCmpJs, rowKey, hd]

theorem rowCmpJs_desc_eq (i : ℕ) (a b : List JsValue) :
    rowCmpJs "DESC" i a b = - valueCmpJs (rowKey i a) (rowKey i b) := by
  simp [rowCmpJs, rowKey]

theorem rowCmpJs_asc_key {i : ℕ} {a b : List JsValue} (d : String) (hd : d ≠ "DESC")
    (ha : ∃ q : ℚ, rowKey i a = JsValue.num q)
    (hb : ∃ q : ℚ, rowKey i b = JsValue.num q) :
    (rowCmpJs d i a b ≤ 0 ↔ keyQ i a ≤ keyQ i b) := by
  obtain ⟨x, hx⟩ := ha
  obtain ⟨y, hy⟩ := hb
  rw [keyQ_spec hx, keyQ_spec hy, rowCmpJs_eq_valueCmpJs d hd, hx, hy, valueCmpJs_num]
  by_cases h1 : x < y
  · simp [h1, le_of_lt h1]
  · by_cases h2 : y < x
    · simp [h1, h2, not_le.mpr h2]
    · simp [h1, h2, le_of_not_lt h2]

theorem rowCmpJs_desc_key {i : ℕ} {a b : List JsValue}
    (ha : ∃ q : ℚ, rowKey i a = JsValue.num q)
    (hb : ∃ q : ℚ, rowKey i b = JsValue.num q) :
    (rowCmpJs "DESC" i a b ≤ 0 ↔ - keyQ i a ≤ - keyQ i b) := by
  obtain ⟨x, hx⟩ := ha
  obtain ⟨y, hy⟩ := hb
  rw [keyQ_spec hx, keyQ_spec hy, rowCmpJs_desc_eq, hx, hy, valueCmpJs_num,
    neg_le_neg_iff]
  by_cases h1 : x < y
  · simp [h1, not_le.mpr h1]
  · by_cases h2 : y < x
    · simp [h1, h2, le_of_lt h2]
    · simp [h1, h2, le_of_not_lt h1]

/-- A catalog whose students rows hold a Null and a negative
tutor_group_id (the schema is the seed schema; only the data differ). -/
def nullSortState : SimState :=
  { schema := schemaJs,
    data := [("students",
      [[("tutor_group_id", JsValue.vnull)],
       [("tutor_group_id", JsValue.num (-1))]])] }

/-- `SELECT tutor_group_id FROM students ORDER BY tutor_group_id ASC`. -/
def nullSortQueryAst : QueryAst :=
  { select := { items := [{ kind := .colRef { column := "tutor_group_id" } }] },
    fromTable := "students",
    orderBy := some { column := { column := "tutor_group_id" }, direction := "ASC" } }

/-- Counterexample to C7 as stated: Null keys do not sort first under ASC.
`Number(null)` is 0, so a Null key compares as the number 0 and sorts
after every negative number: ordering the rows [Null] and [-1] ascending
yields [[-1], [Null]]. -/
theorem orderByNullNotFirst_counterexample :
    runStatement (.query nullSortQueryAst) nullSortState
      = (.ok { columns := ["tutor_group_id"],
               rows := [[.num (-1)], [.vnull]], rowCount := 2 }, nullSortState) := by
  decide

/-- C7 (amended): for a SELECT with ORDER BY whose order column resolves to
index i of the projected columns, numbers compare numerically, strings
compare as strings, and DESC negates the three-way comparator; the sorted
output is a permutation of the projected rows; when every sort key is a
number the output is ascending for ASC and descending for DESC, and the
sort is stable (rows with any given key keep their relative order).  A
Null key, however, does not sort first: it compares as the number 0 (the
counterexample places it after -1). -/
theorem orderBySortSemantics (o : OrderByAst) (rows : List (List JsValue))
    (columns : List String) (i : ℕ)
    (hi : orderByIndex o columns = some i)
    (hnum : ∀ r ∈ rows, ∃ q : ℚ, rowKey i r = JsValue.num q) :
    (∀ x y : ℚ, jsLt (.num x) (.num y) = decide (x < y)) ∧
    (∀ s t : String, jsLt (.str s) (.str t) = jsStrLt s t) ∧
    (∀ x : ℚ, jsLt .vnull (.num x) = decide (0 < x) ∧
      jsLt (.num x) .vnull = decide (x < 0)) ∧
    (∀ (j : ℕ) (a b : List JsValue), rowCmpJs "DESC" j a b = - rowCmpJs "ASC" j a b) ∧
    List.Perm (applyOrderBy o rows columns) rows ∧
    (o.direction = "ASC" →
      (applyOrderBy o rows columns).Pairwise (fun a b => keyQ i a ≤ keyQ i b)) ∧
    (o.direction = "DESC" →
      (applyOrderBy o rows columns).Pairwise (fun a b => keyQ i b ≤ keyQ i a)) ∧
    (∀ v : ℚ, (applyOrderBy o rows columns).filter (fun r => decide (keyQ i r = v))
      = rows.filter (fun r => decide (keyQ i r = v))) := by
  have happ : applyOrderBy o rows columns = stableSortJs (rowCmpJs o.direction i) rows := by
    simp [applyOrderBy, hi]
  refine ⟨?_, ?_, ?_, ?_, ?_, ?_, ?_, ?_⟩
  · intro x y
    simp [jsLt, jsToNumber]
  · intro s t
    rfl
  · intro x
    constructor <;> simp [jsLt, jsToNumber]
  · intro j a b
    simp [rowCmpJs]
  · rw [happ]
    exact stableSortJs_perm (rowCmpJs o.direction i) rows
  · intro hdir
    rw [happ, hdir]
    refine stableSortJs_pairwise (rowCmpJs "ASC" i) (keyQ i) rows ?_
    intro a ha b hb
    exact rowCmpJs_asc_key "ASC" (by decide) (hnum a ha) (hnum b hb)
  · intro hdir
    rw [happ, hdir]
    have hp := stableSortJs_pairwise (rowCmpJs "DESC" i) (fun r => - keyQ i r) rows
      (fun a ha b hb => rowCmpJs_desc_key (hnum a ha) (hnum b hb))
    exact hp.imp (fun hab => by simpa using hab)
  · intro v
    rw [happ]
    by_cases hdir : o.direction = "DESC"
    · rw [hdir]
      have hf := stableSortJs_filter_key (rowCmpJs "DESC" i) (fun r => - keyQ i r) rows
        (fun a ha b hb => rowCmpJs_desc_key (hnum a ha) (hnum b hb)) (-v)
      have hpred : ∀ r : List JsValue,
          (decide (- keyQ i r = -v)) = (decide (keyQ i r = v)) := by
        intro r
        by_cases h : keyQ i r = v <;> simp [h]
      calc (stableSortJs (rowCmpJs "DESC" i) rows).filter (fun r => decide (keyQ i r = v))
          = (stableSortJs (rowCmpJs "DESC" i) rows).filter
              (fun r => decide (- keyQ i r = -v)) := by
            exact List.filter_congr (fun r hr => (hpred r).symm)
        _ = rows.filter (fun r => decide (- keyQ i r = -v)) := by
            simpa using hf
        _ = rows.filter (fun r => decide (keyQ i r = v)) :=
            List.filter_congr (fun r hr => hpred r)
    · exact stableSortJs_filter_key (rowCmpJs o.direction i) (keyQ i) rows
        (fun a ha b hb => rowCmpJs_asc_key o.direction hdir (hnum a ha) (hnum b hb)) v

/-- Witness for C7's amended statement: a three-row sort with a repeated
key, checked at a concrete catalog-free input. -/
theorem orderBySortSemantics_witness :
    List.Perm (applyOrderBy { column := { column := "k" }, direction := "ASC" }
        [[JsValue.num 2], [JsValue.num 1], [JsValue.num 1]] ["k"])
      [[JsValue.num 2], [JsValue.num 1], [JsValue.num 1]] :=
  (orderBySortSemantics { column := { column := "k" }, direction := "ASC" }
    [[JsValue.num 2], [JsValue.num 1], [JsValue.num 1]] ["k"] 0 (by decide)
    (by
      simp only [List.mem_cons, List.not_mem_nil, or_false]
      rintro r (rfl | rfl | rfl)
      · exact ⟨2, rfl⟩
      · exact ⟨1, rfl⟩
      · exact ⟨1, rfl⟩)).2.2.2.2.1

/-!
## C6 — AUTO_INCREMENT counters
-/

/-- The per-table, per-column AUTO_INCREMENT counter visible in a catalog
state (`none` when the table, the counters object, or the entry is
absent). -/
def countersOf (st : SimState) (t c : String) : Option ℚ :=
  match alistGet st.schema t with
  | none => none
  | some ts =>
      match ts.autoIncrementCounters with
      | none => none
      | some cs => alistGet cs c

theorem countersOf_def (st : SimState) (t c : String) :
    countersOf st t c = (alistGet st.schema t).bind
      (fun ts => ts.autoIncrementCounters.bind (fun cs => alistGet cs c)) := by
  rcases hg : alistGet st.schema t with _ | ts
  · simp [countersOf, hg]
  · rcases hcs : ts.autoIncrementCounters with _ | cs <;> simp [countersOf, hg, hcs]

/-- The catalog state a DDL/DML step leaves behind, error or not. -/
def outState {α : Type} : Except (JsErr × SimState) (α × SimState) → SimState
  | .error es => es.2
  | .ok os => os.2

/-- One state is counter-wise below another: every counter present in the
first is present in the second, at least as large. -/
def CounterLe (st st' : SimState) : Prop :=
  ∀ t c v, countersOf st t c = some v → ∃ w, countersOf st' t c = some w ∧ v ≤ w

theorem counterLe_refl (st : SimState) : CounterLe st st :=
  fun _ _ v hv => ⟨v, hv, le_refl v⟩

theorem counterLe_trans {s₁ s₂ s₃ : SimState} (h₁ : CounterLe s₁ s₂)
    (h₂ : CounterLe s₂ s₃) : CounterLe s₁ s₃ := by
  intro t c v hv
  obtain ⟨w, hw, hvw⟩ := h₁ t c v hv
  obtain ⟨u, hu, hwu⟩ := h₂ t c w hw
  exact ⟨u, hu, le_trans hvw hwu⟩

theorem countersOf_eq_some {st : SimState} {t c : String} {v : ℚ}
    (h : countersOf st t c = some v) :
    ∃ ts cs, alistGet st.schema t = some ts ∧ ts.autoIncrementCounters = some cs ∧
      alistGet cs c = some v := by
  rw [countersOf_def] at h
  rcases hg : alistGet st.schema t with _ | ts
  · rw [hg] at h
    exact absurd h (by simp)
  · rw [hg, Option.some_bind] at h
    rcases hcs : ts.autoIncrementCounters with _ | cs
    · rw [hcs] at h
      exact absurd h (by simp)
    · rw [hcs, Option.some_bind] at h
      exact ⟨ts, cs, rfl, hcs, h⟩

theorem counterLe_schema_eq {st st' : SimState} (h : st'.schema = st.schema) :
    CounterLe st st' := by
  intro t c v hv
  refine ⟨v, ?_, le_refl v⟩
  rw [countersOf_def, h, ← countersOf_def]
  exact hv

/-- A same-table schema write that keeps the counters object preserves
every counter. -/
theorem counterLe_preserveCounters (st st' : SimState) (tn : String) (ts' : TableSchema)
    (hst' : st'.schema = alistSet st.schema tn ts')
    (hpres : ∀ ts, alistGet st.schema tn = some ts →
      ts'.autoIncrementCounters = ts.autoIncrementCounters) :
    CounterLe st st' := by
  intro t c v hv
  obtain ⟨ts, cs, hts, hcs, hc⟩ := countersOf_eq_some hv
  refine ⟨v, ?_, le_refl v⟩
  rw [countersOf_def, hst']
  by_cases ht : t = tn
  · subst ht
    rw [alistGet_set_self, Option.some_bind, hpres ts hts, hcs, Option.some_bind]
    exact hc
  · rw [alistGet_set_ne _ _ _ _ ht, hts, Option.some_bind, hcs, Option.some_bind]
    exact hc

/-- A same-table schema write that installs `alistSet cs cn w` over the
fetched counters `cs`, with the old entry at `cn` at most `w`, preserves
`CounterLe`. -/
theorem counterLe_raise (st st' : SimState) (tn cn : String) (w : ℚ) (ts' : TableSchema)
    (hst' : st'.schema = alistSet st.schema tn ts')
    (hts' : ts'.autoIncrementCounters = some (alistSet
      (((alistGet st.schema tn).getD { columns := [] }).autoIncrementCounters.getD [])
      cn w))
    (hraise : ∀ v, alistGet
      (((alistGet st.schema tn).getD { columns := [] }).autoIncrementCounters.getD [])
      cn = some v → v ≤ w) :
    CounterLe st st' := by
  intro t c v hv
  obtain ⟨ts, cs, hts, hcs, hc⟩ := countersOf_eq_some hv
  rw [countersOf_def, hst']
  by_cases ht : t = tn
  · subst ht
    rw [hts] at hts' hraise
    simp only [Option.getD_some] at hts' hraise
    rw [hcs] at hts' hraise
    simp only [Option.getD_some] at hts' hraise
    rw [alistGet_set_self, Option.some_bind, hts', Option.some_bind]
    by_cases hcn : c = cn
    · subst hcn
      refine ⟨w, ?_, hraise v hc⟩
      rw [alistGet_set_self]
    · refine ⟨v, ?_, le_refl v⟩
      rw [alistGet_set_ne _ _ _ _ hcn]
      exact hc
  · refine ⟨v, ?_, le_refl v⟩
    rw [alistGet_set_ne _ _ _ _ ht, hts, Option.some_bind, hcs, Option.some_bind]
    exact hc

theorem ratSucc_gt (q : ℚ) : q < ratSucc q := by
  rw [ratSucc_eq]
  exact lt_add_of_pos_right q one_pos

theorem counterLe_getNext (st : SimState) (tn cn : String) :
    CounterLe st (getNextAutoIncrementValue st tn cn).2 := by
  refine counterLe_raise st _ tn cn (getNextAutoIncrementValue st tn cn).1 _ rfl rfl ?_
  intro v hv
  rw [show (getNextAutoIncrementValue st tn cn).1 = ratSucc (max ((alistGet
      (((alistGet st.schema tn).getD { columns := [] }).autoIncrementCounters.getD [])
      cn).getD 0)
      (maxNumericInColumn ((alistGet st.data tn).getD []) cn)) from rfl, hv]
  simp only [Option.getD_some]
  exact le_of_lt (lt_of_le_of_lt (le_max_left _ _) (ratSucc_gt _))

theorem counterLe_bump (st : SimState) (tn cn : String) (val : JsValue) :
    CounterLe st (bumpAutoIncrementCounter st tn cn val) := by
  unfold bumpAutoIncrementCounter
  split
  · rename_i n hn
    refine counterLe_raise st _ tn cn (max ((alistGet
      (((alistGet st.schema tn).getD { columns := [] }).autoIncrementCounters.getD [])
      cn).getD 0) n) _ rfl rfl ?_
    intro v hv
    rw [hv]
    simp only [Option.getD_some]
    exact le_max_left v n
  · exact counterLe_refl st

theorem counterLe_insertFill (tn : String) (cds : List ColumnDef) (row : Row)
    (st : SimState) : CounterLe st (outState (insertFill tn cds row st)) := by
  induction cds generalizing row st with
  | nil => exact counterLe_refl st
  | cons cd rest ih =>
      rcases h1 : rowHas row cd.name with _ | _
      · rcases h2 : cd.autoIncrement with _ | _
        · simp only [insertFill, h1, h2, Bool.false_eq_true, Bool.true_eq_false,
            eq_self_iff_true, if_false, if_true]
          split
          · exact counterLe_refl st
          · split
            · exact counterLe_refl st
            · exact ih _ _
        · simp only [insertFill, h1, h2, Bool.false_eq_true, Bool.true_eq_false,
            eq_self_iff_true, if_false, if_true]
          split
          · exact counterLe_getNext st tn cd.name
          · split
            · exact counterLe_getNext st tn cd.name
            · exact counterLe_trans (counterLe_getNext st tn cd.name)
                (counterLe_trans (counterLe_bump _ tn cd.name _) (ih _ _))
      · rcases h2 : cd.autoIncrement with _ | _
        · simp only [insertFill, h1, h2, Bool.false_eq_true, Bool.true_eq_false,
            eq_self_iff_true, if_false, if_true]
          split
          · exact counterLe_refl st
          · split
            · exact counterLe_refl st
            · exact ih _ _
        · simp only [insertFill, h1, h2, Bool.false_eq_true, Bool.true_eq_false,
            eq_self_iff_true, if_false, if_true]
          split
          · exact counterLe_refl st
          · split
            · exact counterLe_refl st
            · exact counterLe_trans (counterLe_bump st tn cd.name _) (ih _ _)

/-- The state left behind by the update loops (which return a bare state
on success). -/
def loopState : Except (JsErr × SimState) SimState → SimState
  | .error es => es.2
  | .ok s => s

theorem counterLe_updateAssign (tn : String) (cds : List ColumnDef) (pk : Option String)
    (i : ℕ) (asgs : List AssignmentAst) (st : SimState) :
    CounterLe st (loopState (updateAssignLoop tn cds pk i asgs st)) := by
  induction asgs generalizing st with
  | nil => exact counterLe_refl st
  | cons a rest ih =>
      simp only [updateAssignLoop]
      split
      · exact counterLe_refl st
      · rename_i colDef hfind
        split
        · exact counterLe_refl st
        · split
          · exact counterLe_refl st
          · split
            · exact counterLe_refl st
            · rcases h2 : colDef.autoIncrement with _ | _
              · simp only [h2, Bool.false_eq_true, if_false]
                refine counterLe_trans ?_ (ih _)
                exact counterLe_schema_eq rfl
              · simp only [h2, eq_self_iff_true, if_true]
                refine counterLe_trans ?_ (ih _)
                refine counterLe_trans ?_ (counterLe_bump _ tn colDef.name _)
                exact counterLe_schema_eq rfl

theorem counterLe_updateRowLoop (tn : String) (cds : List ColumnDef) (pk : Option String)
    (asgs : List AssignmentAst) (idxs : List ℕ) (st : SimState) :
    CounterLe st (loopState (updateRowLoop tn cds pk asgs idxs st)) := by
  induction idxs generalizing st with
  | nil => exact counterLe_refl st
  | cons i rest ih =>
      simp only [updateRowLoop]
      rcases h : updateAssignLoop tn cds pk i asgs st with es | st'
      · have h1 := counterLe_updateAssign tn cds pk i asgs st
        rw [h] at h1
        exact h1
      · have h1 := counterLe_updateAssign tn cds pk i asgs st
        rw [h] at h1
        exact counterLe_trans h1 (ih st')

theorem counterLe_alterBackfill (tn cn : String) (ai : Bool) (idxs : List ℕ)
    (st : SimState) : CounterLe st (alterBackfillGo tn cn ai idxs st) := by
  induction idxs generalizing st with
  | nil => exact counterLe_refl st
  | cons i rest ih =>
      rcases h2 : ai with _ | _
      · subst h2
        simp only [alterBackfillGo, Bool.false_eq_true, if_false]
        refine counterLe_trans ?_ (ih _)
        exact counterLe_schema_eq rfl
      · subst h2
        simp only [alterBackfillGo, eq_self_iff_true, if_true]
        refine counterLe_trans ?_ (ih _)
        refine counterLe_trans (counterLe_getNext st tn cn) ?_
        exact counterLe_schema_eq rfl


theorem counterLe_some_le {st st' : SimState} (h : CounterLe st st') {t c : String}
    {v w : ℚ} (hv : countersOf st t c = some v) (hw : countersOf st' t c = some w) :
    v ≤ w := by
  obtain ⟨u, hu, hvu⟩ := h t c v hv
  rw [hu] at hw
  cases hw
  exact hvu

theorem counterLe_createTable (tn : String) (cols : List CreateColumnAst)
    (pk : Option String) (st : SimState) :
    CounterLe st (outState (executeCreateTable tn cols pk st)) := by
  unfold executeCreateTable
  split
  · exact counterLe_refl st
  · rename_i h
    simp only []
    split <;>
      first
      | exact counterLe_refl st
      | (refine counterLe_preserveCounters st _ tn _ rfl ?_
         intro ts hts
         rw [hts] at h
         simp at h)

/-- Two successive same-table schema writes whose final write keeps the
counters object preserve every counter. -/
theorem counterLe_set2 (st st' : SimState) (tn : String) (ts₁ ts₂ : TableSchema)
    (hst' : st'.schema = alistSet (alistSet st.schema tn ts₁) tn ts₂)
    (hpres : ∀ ts, alistGet st.schema tn = some ts →
      ts₂.autoIncrementCounters = ts.autoIncrementCounters) :
    CounterLe st st' := by
  intro t c v hv
  obtain ⟨ts, cs, hts, hcs, hc⟩ := countersOf_eq_some hv
  refine ⟨v, ?_, le_refl v⟩
  rw [countersOf_def, hst']
  by_cases ht : t = tn
  · subst ht
    rw [alistGet_set_self, Option.some_bind, hpres ts hts, hcs, Option.some_bind]
    exact hc
  · rw [alistGet_set_ne _ _ _ _ ht, alistGet_set_ne _ _ _ _ ht, hts, Option.some_bind,
      hcs, Option.some_bind]
    exact hc

theorem counterLe_alterTable (tn : String) (col : CreateColumnAst) (st : SimState) :
    CounterLe st (outState (executeAlterTable tn col st)) := by
  unfold executeAlterTable
  split
  · exact counterLe_refl st
  · rename_i ts hts
    split
    · exact counterLe_refl st
    · split
      · exact counterLe_refl st
      · simp only []
        split
        · exact counterLe_refl st
        · split
          · split
            · refine counterLe_preserveCounters st _ tn _ rfl ?_
              intro ts0 hts0
              rw [hts] at hts0
              cases hts0
              rfl
            · refine counterLe_trans ?_ (counterLe_alterBackfill tn _ _ _ _)
              refine counterLe_set2 st _ tn _ _ rfl ?_
              intro ts0 hts0
              rw [hts] at hts0
              cases hts0
              rfl
          · refine counterLe_trans ?_ (counterLe_alterBackfill tn _ _ _ _)
            refine counterLe_preserveCounters st _ tn _ rfl ?_
            intro ts0 hts0
            rw [hts] at hts0
            cases hts0
            rfl

theorem counterLe_insert (tn : String) (cols : List String) (vals : List Operand)
    (st : SimState) : CounterLe st (outState (executeInsert tn cols vals st)) := by
  unfold executeInsert
  split
  · exact counterLe_refl st
  · split
    · exact counterLe_refl st
    · simp only []
      split
      · exact counterLe_refl st
      · split
        · exact counterLe_refl st
        · split
          · exact counterLe_refl st
          · rename_i newRow₀ hsup
            split
            · rename_i es hfill
              have hf := counterLe_insertFill tn (resolveColumnDefinitions st tn)
                newRow₀ st
              rw [hfill] at hf
              exact hf
            · rename_i rs hfill
              have hf := counterLe_insertFill tn (resolveColumnDefinitions st tn)
                newRow₀ st
              rw [hfill] at hf
              repeat' first
                | exact hf
                | exact counterLe_trans hf (counterLe_schema_eq rfl)
                | split

theorem counterLe_update (tn : String) (asgs : List AssignmentAst)
    (w : Option WhereAst) (st : SimState) :
    CounterLe st (outState (executeUpdate tn asgs w st)) := by
  unfold executeUpdate
  split
  · exact counterLe_refl st
  · rename_i ts hts
    split
    · exact counterLe_refl st
    · simp only []
      split
      · exact counterLe_refl st
      · cases w with
        | none =>
            simp only []
            rcases hloop : updateRowLoop tn (resolveColumnDefinitions st tn)
                (getPrimaryKey ts (resolveColumnDefinitions st tn)) asgs
                (List.range ((alistGet st.data tn).getD []).length) st with es | st'
            · have h1 := counterLe_updateRowLoop tn (resolveColumnDefinitions st tn)
                (getPrimaryKey ts (resolveColumnDefinitions st tn)) asgs
                (List.range ((alistGet st.data tn).getD []).length) st
              rw [hloop] at h1
              exact h1
            · have h1 := counterLe_updateRowLoop tn (resolveColumnDefinitions st tn)
                (getPrimaryKey ts (resolveColumnDefinitions st tn)) asgs
                (List.range ((alistGet st.data tn).getD []).length) st
              rw [hloop] at h1
              exact h1
        | some w0 =>
            simp only []
            rcases hloop : updateRowLoop tn (resolveColumnDefinitions st tn)
                (getPrimaryKey ts (resolveColumnDefinitions st tn)) asgs
                ((List.range ((alistGet st.data tn).getD []).length).filter (fun i =>
                  rowMatchesWhere tn w0 (((alistGet st.data tn).getD []).getD i [])))
                st with es | st'
            · have h1 := counterLe_updateRowLoop tn (resolveColumnDefinitions st tn)
                (getPrimaryKey ts (resolveColumnDefinitions st tn)) asgs
                ((List.range ((alistGet st.data tn).getD []).length).filter (fun i =>
                  rowMatchesWhere tn w0 (((alistGet st.data tn).getD []).getD i []))) st
              rw [hloop] at h1
              exact h1
            · have h1 := counterLe_updateRowLoop tn (resolveColumnDefinitions st tn)
                (getPrimaryKey ts (resolveColumnDefinitions st tn)) asgs
                ((List.range ((alistGet st.data tn).getD []).length).filter (fun i =>
                  rowMatchesWhere tn w0 (((alistGet st.data tn).getD []).getD i []))) st
              rw [hloop] at h1
              exact h1

theorem counterLe_delete (tn : String) (w : Option WhereAst) (st : SimState) :
    CounterLe st (outState (executeDelete tn w st)) := by
  unfold executeDelete
  split
  · exact counterLe_refl st
  · split
    · exact counterLe_refl st
    · split
      · exact counterLe_schema_eq rfl
      · exact counterLe_schema_eq rfl

theorem counterLe_runStatement (stmt : Statement) (st : SimState)
    (hnd : ∀ tn, stmt ≠ Statement.dropTable tn) :
    CounterLe st (runStatement stmt st).2 := by
  cases stmt with
  | query q =>
      simp only [runStatement]
      rcases hv : validateQuery q st.schema with e | qs
      · exact counterLe_refl st
      · exact counterLe_refl st
  | createTable tn cols pk =>
      simp only [runStatement]
      have hle := counterLe_createTable tn cols pk st
      rcases hr : executeCreateTable tn cols pk st with es | os <;> rw [hr] at hle <;>
        exact hle
  | alterTable tn col =>
      simp only [runStatement]
      have hle := counterLe_alterTable tn col st
      rcases hr : executeAlterTable tn col st with es | os <;> rw [hr] at hle <;>
        exact hle
  | dropTable tn => exact absurd rfl (hnd tn)
  | insert tn cols vals =>
      simp only [runStatement]
      have hle := counterLe_insert tn cols vals st
      rcases hr : executeInsert tn cols vals st with es | os <;> rw [hr] at hle <;>
        exact hle
  | update tn asgs w =>
      simp only [runStatement]
      have hle := counterLe_update tn asgs w st
      rcases hr : executeUpdate tn asgs w st with es | os <;> rw [hr] at hle <;>
        exact hle
  | delete tn w =>
      simp only [runStatement]
      have hle := counterLe_delete tn w st
      rcases hr : executeDelete tn w st with es | os <;> rw [hr] at hle <;>
        exact hle

theorem counterMonoAux (stmt : Statement) (st : SimState) (t c : String) (v w : ℚ)
    (hv : countersOf st t c = some v)
    (hw : countersOf (runStatement stmt st).2 t c = some w) : v ≤ w := by
  by_cases hd : ∃ tn, stmt = Statement.dropTable tn
  · obtain ⟨tn, rfl⟩ := hd
    simp only [runStatement, executeDropTable] at hw
    split at hw
    · rename_i es heq
      split at heq
      · cases heq
        exact le_of_eq (Option.some.inj (hv.symm.trans hw))
      · split at heq
        · cases heq
          exact le_of_eq (Option.some.inj (hv.symm.trans hw))
        · cases heq
    · rename_i os heq
      split at heq
      · cases heq
      · split at heq
        · cases heq
        · cases heq
          simp only [] at hw
          by_cases ht : t = tn
          · subst ht
            rw [countersOf_def] at hw
            simp only [alistGet_del_self] at hw
            exact absurd hw (by simp)
          · rw [countersOf_def] at hw
            simp only [alistGet_del_ne _ _ _ ht] at hw
            rw [← countersOf_def] at hw
            exact le_of_eq (Option.some.inj (hv.symm.trans hw))
  · push_neg at hd
    exact counterLe_some_le (counterLe_runStatement stmt st hd) hv hw

theorem rowHas_set_ne (r : Row) (n k : String) (v : JsValue) (h : n ≠ k) :
    rowHas (alistSet r n v) k = rowHas r k := by
  unfold rowHas
  rw [alistGet_set_ne _ _ _ _ (Ne.symm h)]

theorem rowGet_set_ne (r : Row) (n k : String) (v : JsValue) (h : n ≠ k) :
    rowGet (alistSet r n v) k = rowGet r k := by
  unfold rowGet
  rw [alistGet_set_ne _ _ _ _ (Ne.symm h)]

theorem rowGet_set_self (r : Row) (k : String) (v : JsValue) :
    rowGet (alistSet r k v) k = v := by
  unfold rowGet
  rw [alistGet_set_self]
  rfl

theorem rowHas_set_self (r : Row) (k : String) (v : JsValue) :
    rowHas (alistSet r k v) k = true := by
  unfold rowHas
  rw [alistGet_set_self]
  rfl

theorem maxNumericFold_ge_init (rows : List Row) (c : String) (m : ℚ) :
    m ≤ rows.foldl (fun acc row =>
      match jsToNumber (rowGet row c) with
      | some v => if v > acc then v else acc
      | none => acc) m := by
  induction rows generalizing m with
  | nil => exact le_refl m
  | cons r rest ih =>
      simp only [List.foldl_cons]
      refine le_trans ?_ (ih _)
      split
      · split
        · rename_i hv _ hgt
          exact le_of_lt hgt
        · exact le_refl m
      · exact le_refl m

theorem maxNumericFold_mem (rows : List Row) (c : String) (m : ℚ) (row : Row) (q : ℚ)
    (hrow : row ∈ rows) (hq : jsToNumber (rowGet row c) = some q) :
    q ≤ rows.foldl (fun acc row =>
      match jsToNumber (rowGet row c) with
      | some v => if v > acc then v else acc
      | none => acc) m := by
  induction rows generalizing m with
  | nil => cases hrow
  | cons r rest ih =>
      rcases List.mem_cons.mp hrow with rfl | hmem
      · simp only [List.foldl_cons, hq]
        refine le_trans ?_ (maxNumericFold_ge_init rest c _)
        split
        · exact le_refl q
        · rename_i hgt
          exact le_of_not_lt hgt
      · simp only [List.foldl_cons]
        exact ih _ hmem

theorem maxNumericInColumn_ge (rows : List Row) (c : String) (row : Row) (q : ℚ)
    (hrow : row ∈ rows) (hq : jsToNumber (rowGet row c) = some q) :
    q ≤ maxNumericInColumn rows c :=
  maxNumericFold_mem rows c 0 row q hrow hq

theorem insertSupplied_rowHas (cds : List ColumnDef) (pairs : List (String × Operand))
    (acc : Row) (r : Row) (k : String)
    (hok : insertSupplied cds pairs acc = .ok r)
    (hk : ¬ k ∈ pairs.map Prod.fst) :
    rowHas r k = rowHas acc k := by
  induction pairs generalizing acc with
  | nil =>
      simp only [insertSupplied] at hok
      cases hok
      rfl
  | cons p rest ih =>
      obtain ⟨colName, vOp⟩ := p
      simp only [insertSupplied] at hok
      split at hok
      · cases hok
      · rename_i colDef hfind
        split at hok
        · cases hok
        · split at hok
          · cases hok
          · have hk1 : ¬ k ∈ rest.map Prod.fst := by
              intro hm
              exact hk (by simp [hm])
            have hkp : colName ≠ k := by
              intro he
              exact hk (by simp [he])
            rw [ih _ hok hk1, rowHas_set_ne _ _ _ _ hkp]

theorem getNext_data (st : SimState) (tn cn : String) :
    (getNextAutoIncrementValue st tn cn).2.data = st.data := rfl

theorem bump_data (st : SimState) (tn cn : String) (v : JsValue) :
    (bumpAutoIncrementCounter st tn cn v).data = st.data := by
  unfold bumpAutoIncrementCounter
  split
  · rfl
  · rfl

theorem insertFill_data (tn : String) (cds : List ColumnDef) (row : Row) (st : SimState)
    (r : Row) (s : SimState) (hok : insertFill tn cds row st = .ok (r, s)) :
    s.data = st.data := by
  induction cds generalizing row st with
  | nil =>
      simp only [insertFill] at hok
      cases hok
      rfl
  | cons cd rest ih =>
      rcases h1 : rowHas row cd.name with _ | _ <;>
        rcases h2 : cd.autoIncrement with _ | _ <;>
        simp only [insertFill, h1, h2, Bool.false_eq_true, Bool.true_eq_false,
          eq_self_iff_true, if_false, if_true] at hok <;>
        split at hok <;>
        first
        | cases hok
        | (split at hok <;>
           first
           | cases hok
           | exact (ih _ _ hok).trans (by simp only [bump_data, getNext_data]))

theorem insertFill_preserves (tn : String) (cds : List ColumnDef) (row : Row)
    (st : SimState) (k : String) (r : Row) (s : SimState)
    (hk : rowHas row k = true)
    (hok : insertFill tn cds row st = .ok (r, s)) :
    rowGet r k = rowGet row k := by
  induction cds generalizing row st with
  | nil =>
      simp only [insertFill] at hok
      cases hok
      rfl
  | cons cd rest ih =>
      rcases h1 : rowHas row cd.name with _ | _
      · have hne : cd.name ≠ k := by
          intro he
          rw [he, hk] at h1
          cases h1
        rcases h2 : cd.autoIncrement with _ | _ <;>
          simp only [insertFill, h1, h2, Bool.false_eq_true, Bool.true_eq_false,
            eq_self_iff_true, if_false, if_true] at hok <;>
          split at hok <;>
          first
          | cases hok
          | (split at hok <;>
             first
             | cases hok
             | (rw [ih _ _ (by rw [rowHas_set_ne _ _ _ _ hne]; exact hk) hok,
                 rowGet_set_ne _ _ _ _ hne]))
      · rcases h2 : cd.autoIncrement with _ | _ <;>
          simp only [insertFill, h1, h2, Bool.false_eq_true, Bool.true_eq_false,
            eq_self_iff_true, if_false, if_true] at hok <;>
          split at hok <;>
          first
          | cases hok
          | (split at hok <;>
             first
             | cases hok
             | exact ih _ _ hk hok)

theorem insertFill_fresh (tn c : String) (pre post : List ColumnDef) (cd : ColumnDef)
    (row : Row) (st : SimState) (r : Row) (s : SimState)
    (hpre : ∀ d ∈ pre, d.name ≠ c)
    (hcd : cd.name = c) (hai : cd.autoIncrement = true)
    (hno : rowHas row c = false)
    (hok : insertFill tn (pre ++ cd :: post) row st = .ok (r, s)) :
    ∃ n : ℚ, rowGet r c = JsValue.num n ∧
      maxNumericInColumn ((alistGet st.data tn).getD []) c < n := by
  induction pre generalizing row st with
  | nil =>
      subst hcd
      simp only [List.nil_append] at hok
      simp only [insertFill, hno, hai, Bool.false_eq_true, eq_self_iff_true,
        if_false, if_true] at hok
      split at hok
      · cases hok
      · split at hok
        · cases hok
        · refine ⟨(getNextAutoIncrementValue st tn cd.name).1, ?_, ?_⟩
          · rw [insertFill_preserves tn post _ _ cd.name r s
              (rowHas_set_self _ _ _) hok]
            exact rowGet_set_self _ _ _
          · exact lt_of_le_of_lt (le_max_right _ _) (ratSucc_gt _)
  | cons d pre' ih =>
      have hd : d.name ≠ c := hpre d (by simp)
      have hpre' : ∀ x ∈ pre', x.name ≠ c := fun x hx => hpre x (by simp [hx])
      simp only [List.cons_append] at hok
      rcases h1 : rowHas row d.name with _ | _
      · rcases h2 : d.autoIncrement with _ | _
        · simp only [insertFill, h1, h2, Bool.false_eq_true, Bool.true_eq_false,
            eq_self_iff_true, if_false, if_true] at hok
          split at hok
          · cases hok
          · split at hok
            · cases hok
            · exact ih _ _ hpre' (by rw [rowHas_set_ne _ _ _ _ hd]; exact hno) hok
        · simp only [insertFill, h1, h2, Bool.false_eq_true, Bool.true_eq_false,
            eq_self_iff_true, if_false, if_true] at hok
          split at hok
          · cases hok
          · split at hok
            · cases hok
            · have hres := ih _ _ hpre'
                (by rw [rowHas_set_ne _ _ _ _ hd]; exact hno) hok
              simpa only [bump_data, getNext_data] using hres
      · rcases h2 : d.autoIncrement with _ | _
        · simp only [insertFill, h1, h2, Bool.false_eq_true, Bool.true_eq_false,
            eq_self_iff_true, if_false, if_true] at hok
          split at hok
          · cases hok
          · split at hok
            · cases hok
            · exact ih _ _ hpre' hno hok
        · simp only [insertFill, h1, h2, Bool.false_eq_true, Bool.true_eq_false,
            eq_self_iff_true, if_false, if_true] at hok
          split at hok
          · cases hok
          · split at hok
            · cases hok
            · have hres := ih _ _ hpre' hno hok
              simpa only [bump_data, getNext_data] using hres

theorem insertFreshAux (tn : String) (cols : List String) (vals : List Operand)
    (st : SimState) (out : Output) (st' : SimState) (c : String)
    (pre post : List ColumnDef) (cd : ColumnDef)
    (hrun : runStatement (.insert tn cols vals) st = (.ok out, st'))
    (hsplit : resolveColumnDefinitions st tn = pre ++ cd :: post)
    (hpre : ∀ d ∈ pre, d.name ≠ c)
    (hcd : cd.name = c) (hai : cd.autoIncrement = true)
    (homit : ¬ c ∈ cols) :
    ∃ (n : ℚ) (newRow : Row),
      st'.data = alistSet st.data tn (((alistGet st.data tn).getD []) ++ [newRow]) ∧
      rowGet newRow c = JsValue.num n ∧
      ∀ row ∈ (alistGet st.data tn).getD [], ∀ q : ℚ,
        jsToNumber (rowGet row c) = some q → q < n := by
  simp only [runStatement] at hrun
  rcases hex : executeInsert tn cols vals st with es | os
  · rw [hex] at hrun
    simp at hrun
  · rw [hex] at hrun
    simp only [Prod.mk.injEq] at hrun
    obtain ⟨hout, hst'⟩ := hrun
    unfold executeInsert at hex
    split at hex
    · cases hex
    · rename_i ts hts
      split at hex
      · cases hex
      · simp only [] at hex
        split at hex
        · cases hex
        · split at hex
          · cases hex
          · split at hex
            · cases hex
            · rename_i newRow₀ hsup
              split at hex
              · cases hex
              · rename_i rs hfill
                split at hex
                · cases hex
                · split at hex
                  · cases hex
                  · rename_i rows hrows
                    cases hex
                    obtain ⟨r, s⟩ := rs
                    simp only [] at hst' hrows hfill
                    have hdata := insertFill_data _ _ _ _ _ _ hfill
                    have hnosup : rowHas newRow₀ c = false := by
                      have hz : ¬ c ∈ (cols.zip vals).map Prod.fst := by
                        intro hm
                        rcases List.mem_map.mp hm with ⟨p, hp, hpc⟩
                        exact homit (hpc ▸ (List.of_mem_zip hp).1)
                      rw [insertSupplied_rowHas _ _ _ _ _ hsup hz]
                      rfl
                    rw [hsplit] at hfill
                    obtain ⟨n, hr, hbound⟩ := insertFill_fresh tn c pre post cd
                      newRow₀ st r s hpre hcd hai hnosup hfill
                    refine ⟨n, r, ?_, hr, ?_⟩
                    · rw [← hst']
                      simp only []
                      rw [hdata]
                      rw [hdata] at hrows
                      rw [hrows]
                      rfl
                    · intro row hrow q hq
                      exact lt_of_le_of_lt
                        (maxNumericInColumn_ge _ c row q hrow hq) hbound

/-- The auto-increment fixture with its counter already advanced to 3. -/
def aiCounterState : SimState :=
  { schema := [("nums", { columns := [{ name := "id", type := "number",
                                        autoIncrement := true, isPrimaryKey := true },
                                      { name := "note", type := "string" }],
                          primaryKey := some "id", isUserCreated := true,
                          autoIncrementCounters := some [("id", 3)] })],
    data := [("nums", [])] }

/-- The catalog `INSERT INTO nums (note) VALUES ('x')` leaves behind on the
empty auto-increment fixture. -/
def aiInsertedState : SimState :=
  { schema := [("nums", { columns := [{ name := "id", type := "number",
                                        autoIncrement := true, isPrimaryKey := true },
                                      { name := "note", type := "string" }],
                          primaryKey := some "id", isUserCreated := true,
                          autoIncrementCounters := some [("id", 1)] })],
    data := [("nums", [[("note", JsValue.str "x"), ("id", JsValue.num 1)]])] }

/-- C6: AUTO_INCREMENT counters never decrease across an execute call — a
counter present both before and after any statement can only have grown
(DROP TABLE removes a table's counters altogether rather than lowering
one) — and a successful INSERT that omits an AUTO_INCREMENT column appends
a row holding, at that column, a numeric value strictly greater than every
numeric value previously present in that column of the table. -/
theorem autoIncrementMonotoneFresh :
    (∀ (stmt : Statement) (st : SimState) (t c : String) (v w : ℚ),
      countersOf st t c = some v →
      countersOf (runStatement stmt st).2 t c = some w → v ≤ w) ∧
    (∀ (tn : String) (cols : List String) (vals : List Operand) (st : SimState)
        (out : Output) (st' : SimState) (c : String) (pre post : List ColumnDef)
        (cd : ColumnDef),
      runStatement (.insert tn cols vals) st = (.ok out, st') →
      resolveColumnDefinitions st tn = pre ++ cd :: post →
      (∀ d ∈ pre, d.name ≠ c) → cd.name = c → cd.autoIncrement = true →
      ¬ c ∈ cols →
      ∃ (n : ℚ) (newRow : Row),
        st'.data = alistSet st.data tn (((alistGet st.data tn).getD []) ++ [newRow]) ∧
        rowGet newRow c = JsValue.num n ∧
        ∀ row ∈ (alistGet st.data tn).getD [], ∀ q : ℚ,
          jsToNumber (rowGet row c) = some q → q < n) :=
  ⟨counterMonoAux, insertFreshAux⟩

/-- Witness for C6 on the auto-increment fixtures: a DELETE leaves the
counter at 3, and the first INSERT omitting the id column appends a row
with a fresh id. -/
theorem autoIncrementMonotoneFresh_witness :
    ((3 : ℚ) ≤ 3) ∧
    (∃ (n : ℚ) (newRow : Row),
      aiInsertedState.data = alistSet aiTestState.data "nums"
        (((alistGet aiTestState.data "nums").getD []) ++ [newRow]) ∧
      rowGet newRow "id" = JsValue.num n ∧
      ∀ row ∈ (alistGet aiTestState.data "nums").getD [], ∀ q : ℚ,
        jsToNumber (rowGet row "id") = some q → q < n) :=
  ⟨autoIncrementMonotoneFresh.1 (.delete "nums" none) aiCounterState "nums" "id" 3 3
      (by decide) (by decide),
   autoIncrementMonotoneFresh.2 "nums" ["note"] [.lit (.str "x")] aiTestState
      { columns := ["Result"], rows := [[.str "1 row inserted into 'nums'"]],
        rowCount := 1 }
      aiInsertedState "id" []
      [{ name := "note", type := "string", size := none, notNull := false,
         autoIncrement := false, isPrimaryKey := false }]
      { name := "id", type := "number", size := none, notNull := true,
        autoIncrement := true, isPrimaryKey := true }
      (by decide) (by decide) (by decide) (by decide) (by decide) (by decide)⟩

end SQLSim
